import Mathlib

/-!
A shallow embedding of `cargo_metadata` (src/src/lib.rs): the typed data
model (`Metadata`, `Package`, `Target`, `Node`, `Resolve`), its serde-derive
style JSON decoders, the byte → text → JSON → typed-graph pipeline of
`metadata_deps`, and the argument-vector construction.

JSON documents are modelled as trees (`Json`); numbers are modelled as
integers (none of the schema's fields is floating point).  Struct decoding
follows serde-derive's map visitor: members are folded in order into
option-valued slots, a known key whose slot is already filled is a
"duplicate field" error, unknown keys are ignored, and at the end missing
required fields are an error while `#[serde(default)]` fields
(`workspace_members`, `crate_types`) default and `Option` fields default to
`none`.  `HashMap` fields (`features`) decode every member, later duplicate
keys overwriting earlier ones.  (serde_json additionally allows decoding a
struct from a JSON array positionally; the documents in this development
are object documents, which is the form the decoders model.)
-/

namespace CargoMetadata

/-- A JSON value; numbers are modelled as integers (see module comment). -/
inductive Json where
  | null
  | bool (b : Bool)
  | num (n : Int)
  | str (s : String)
  | arr (elems : List Json)
  | obj (members : List (String × Json))

/-- Modelled from the spec: the `dependency` module (`mod dependency;`) is
declared in src/src/lib.rs but its file is not under src/.  The spec lists a
dependency's `kind` as a variant over Normal, Development and Build. -/
inductive DependencyKind where
  | normal
  | development
  | build
deriving DecidableEq

/-- Modelled from the spec: a dependency has a `name`, an opaque version
requirement and a `kind`; optional fields the tool emits are tolerated by
the unknown-field policy of the decoder. -/
structure Dependency where
  name : String
  req : String
  kind : DependencyKind
deriving DecidableEq

/-- A single target (lib, bin, example, ...) provided by a crate. -/
structure Target where
  name : String
  kind : List String
  crate_types : List String
  src_path : String
deriving DecidableEq

/-- A crate.  `features` models the source's `HashMap<String, Vec<String>>`
as an association list without duplicate keys (later JSON duplicates
overwrite earlier ones, as `HashMap::insert` does). -/
structure Package where
  name : String
  version : String
  id : String
  source : Option String
  dependencies : List Dependency
  targets : List Target
  features : List (String × List String)
  manifest_path : String
deriving DecidableEq

/-- A node in a dependencies graph. -/
structure Node where
  id : String
  dependencies : List String
deriving DecidableEq

/-- A dependency graph. -/
structure Resolve where
  nodes : List Node
deriving DecidableEq

/-- Starting point for metadata returned by `cargo metadata`. -/
structure Metadata where
  packages : List Package
  workspace_members : List String
  resolve : Option Resolve
  version : Nat
deriving DecidableEq

/-! ### Base decoders -/

/-- Decode a JSON string (serde `String`). -/
def decodeString : Json → Except String String
  | .str s => .ok s
  | _ => .error "invalid type: expected string"

/-- Decode a JSON integer into serde `usize` (64-bit target): negative
values are rejected, and so are values above `usize::MAX` = 2^64 - 1 —
serde_json parses an integer beyond the u64 range as a float, which the
usize visitor rejects. -/
def decodeNat : Json → Except String Nat
  | .num n =>
    if n < 0 then .error "invalid value: negative integer"
    else if 18446744073709551615 < n then .error "invalid type: floating point value"
    else .ok n.toNat
  | _ => .error "invalid type: expected integer"

/-- Decode each element of a JSON array with `dec` (serde `Vec<T>`). -/
def decodeListWith (dec : Json → Except String α) : List Json → Except String (List α)
  | [] => .ok []
  | x :: xs =>
    match dec x with
    | .error e => .error e
    | .ok v =>
      match decodeListWith dec xs with
      | .error e => .error e
      | .ok vs => .ok (v :: vs)

/-- Decode a JSON array of strings (serde `Vec<String>`). -/
def decodeStringListJ : Json → Except String (List String)
  | .arr xs => decodeListWith decodeString xs
  | _ => .error "invalid type: expected sequence"

/-- Decode a nullable value (serde `Option<T>`): `null` is `none`. -/
def decodeOptWith (dec : Json → Except String α) : Json → Except String (Option α)
  | .null => .ok none
  | j =>
    match dec j with
    | .error e => .error e
    | .ok v => .ok (some v)

/-- Decode an optional JSON string (serde `Option<String>`). -/
def decodeOptStringJ : Json → Except String (Option String) :=
  decodeOptWith decodeString

/-- Insert into the features map, overwriting an existing key
(`HashMap::insert`). -/
def featInsert : List (String × List String) → String → List String → List (String × List String)
  | [], k, v => [(k, v)]
  | (k', v') :: rest, k, v =>
    if k' = k then (k, v) :: rest else (k', v') :: featInsert rest k v

/-- Fold the members of a JSON object into the features map. -/
def decodeFeaturePairs : List (String × List String) → List (String × Json) →
    Except String (List (String × List String))
  | acc, [] => .ok acc
  | acc, (k, v) :: rest =>
    match decodeStringListJ v with
    | .error e => .error e
    | .ok l => decodeFeaturePairs (featInsert acc k l) rest

/-- Decode a features map (serde `HashMap<String, Vec<String>>`). -/
def decodeFeatures : Json → Except String (List (String × List String))
  | .obj ms => decodeFeaturePairs [] ms
  | _ => .error "invalid type: expected map"

/-- Modelled from the spec: decode a dependency-kind value; `cargo metadata`
emits `null` for a normal dependency and a lowercase tag otherwise, and an
absent member defaults to Normal. -/
def decodeKindVal : Json → Except String DependencyKind
  | .null => .ok .normal
  | .str "normal" => .ok .normal
  | .str "dev" => .ok .development
  | .str "build" => .ok .build
  | _ => .error "unknown variant of dependency kind"

/-! ### Struct decoders (serde-derive map visitors) -/

/-- Fold object members through a per-struct step function, stopping at the
first error (serde-derive's `visit_map` loop). -/
def foldFields (step : σ → String → Json → Except String σ) :
    σ → List (String × Json) → Except String σ
  | st, [] => .ok st
  | st, (k, v) :: rest =>
    match step st k v with
    | .error e => .error e
    | .ok st₂ => foldFields step st₂ rest

/-- Partially filled fields of a `Dependency` during decoding. -/
structure DependencySlots where
  name : Option String := none
  req : Option String := none
  kind : Option DependencyKind := none
deriving DecidableEq

/-- Modelled from the spec: one member step of the `Dependency` visitor. -/
def stepDependency : DependencySlots → String → Json → Except String DependencySlots
  | ⟨sn, sr, skd⟩, k, v =>
    if k = "name" then
      match sn with
      | some _ => .error "duplicate field name"
      | none =>
        match decodeString v with
        | .error e => .error e
        | .ok s => .ok ⟨some s, sr, skd⟩
    else if k = "req" then
      match sr with
      | some _ => .error "duplicate field req"
      | none =>
        match decodeString v with
        | .error e => .error e
        | .ok s => .ok ⟨sn, some s, skd⟩
    else if k = "kind" then
      match skd with
      | some _ => .error "duplicate field kind"
      | none =>
        match decodeKindVal v with
        | .error e => .error e
        | .ok dk => .ok ⟨sn, sr, some dk⟩
    else .ok ⟨sn, sr, skd⟩

/-- Modelled from the spec: decode a `Dependency`; `kind` defaults to
Normal when absent. -/
def decodeDependency : Json → Except String Dependency
  | .obj ms =>
    (match foldFields stepDependency {} ms with
    | .error e => .error e
    | .ok st =>
      match st.name with
      | none => .error "missing field name"
      | some name =>
        match st.req with
        | none => .error "missing field req"
        | some req => .ok ⟨name, req, st.kind.getD .normal⟩)
  | _ => .error "invalid type: expected map"

/-- Decode a JSON array of dependencies. -/
def decodeDependencyListJ : Json → Except String (List Dependency)
  | .arr xs => decodeListWith decodeDependency xs
  | _ => .error "invalid type: expected sequence"

/-- Partially filled fields of a `Target` during decoding. -/
structure TargetSlots where
  name : Option String := none
  kind : Option (List String) := none
  crate_types : Option (List String) := none
  src_path : Option String := none
deriving DecidableEq

/-- One member step of the `Target` visitor. -/
def stepTarget : TargetSlots → String → Json → Except String TargetSlots
  | ⟨sn, sk, sct, ssp⟩, k, v =>
    if k = "name" then
      match sn with
      | some _ => .error "duplicate field name"
      | none =>
        match decodeString v with
        | .error e => .error e
        | .ok s => .ok ⟨some s, sk, sct, ssp⟩
    else if k = "kind" then
      match sk with
      | some _ => .error "duplicate field kind"
      | none =>
        match decodeStringListJ v with
        | .error e => .error e
        | .ok l => .ok ⟨sn, some l, sct, ssp⟩
    else if k = "crate_types" then
      match sct with
      | some _ => .error "duplicate field crate_types"
      | none =>
        match decodeStringListJ v with
        | .error e => .error e
        | .ok l => .ok ⟨sn, sk, some l, ssp⟩
    else if k = "src_path" then
      match ssp with
      | some _ => .error "duplicate field src_path"
      | none =>
        match decodeString v with
        | .error e => .error e
        | .ok s => .ok ⟨sn, sk, sct, some s⟩
    else .ok ⟨sn, sk, sct, ssp⟩

/-- Decode a `Target`; `crate_types` is `#[serde(default)]` and defaults to
the empty list when absent, the other fields are required. -/
def decodeTarget : Json → Except String Target
  | .obj ms =>
    (match foldFields stepTarget {} ms with
    | .error e => .error e
    | .ok st =>
      match st.name with
      | none => .error "missing field name"
      | some name =>
        match st.kind with
        | none => .error "missing field kind"
        | some kind =>
          match st.src_path with
          | none => .error "missing field src_path"
          | some src_path => .ok ⟨name, kind, st.crate_types.getD [], src_path⟩)
  | _ => .error "invalid type: expected map"

/-- Decode a JSON array of targets. -/
def decodeTargetListJ : Json → Except String (List Target)
  | .arr xs => decodeListWith decodeTarget xs
  | _ => .error "invalid type: expected sequence"

/-- Partially filled fields of a `Package` during decoding. -/
structure PackageSlots where
  name : Option String := none
  version : Option String := none
  id : Option String := none
  source : Option (Option String) := none
  dependencies : Option (List Dependency) := none
  targets : Option (List Target) := none
  features : Option (List (String × List String)) := none
  manifest_path : Option String := none
deriving DecidableEq

/-- One member step of the `Package` visitor. -/
def stepPackage : PackageSlots → String → Json → Except String PackageSlots
  | ⟨sn, sv, si, ssrc, sdeps, stgts, sfeat, smp⟩, k, v =>
    if k = "name" then
      match sn with
      | some _ => .error "duplicate field name"
      | none =>
        match decodeString v with
        | .error e => .error e
        | .ok s => .ok ⟨some s, sv, si, ssrc, sdeps, stgts, sfeat, smp⟩
    else if k = "version" then
      match sv with
      | some _ => .error "duplicate field version"
      | none =>
        match decodeString v with
        | .error e => .error e
        | .ok s => .ok ⟨sn, some s, si, ssrc, sdeps, stgts, sfeat, smp⟩
    else if k = "id" then
      match si with
      | some _ => .error "duplicate field id"
      | none =>
        match decodeString v with
        | .error e => .error e
        | .ok s => .ok ⟨sn, sv, some s, ssrc, sdeps, stgts, sfeat, smp⟩
    else if k = "source" then
      match ssrc with
      | some _ => .error "duplicate field source"
      | none =>
        match decodeOptStringJ v with
        | .error e => .error e
        | .ok s => .ok ⟨sn, sv, si, some s, sdeps, stgts, sfeat, smp⟩
    else if k = "dependencies" then
      match sdeps with
      | some _ => .error "duplicate field dependencies"
      | none =>
        match decodeDependencyListJ v with
        | .error e => .error e
        | .ok l => .ok ⟨sn, sv, si, ssrc, some l, stgts, sfeat, smp⟩
    else if k = "targets" then
      match stgts with
      | some _ => .error "duplicate field targets"
      | none =>
        match decodeTargetListJ v with
        | .error e => .error e
        | .ok l => .ok ⟨sn, sv, si, ssrc, sdeps, some l, sfeat, smp⟩
    else if k = "features" then
      match sfeat with
      | some _ => .error "duplicate field features"
      | none =>
        match decodeFeatures v with
        | .error e => .error e
        | .ok f => .ok ⟨sn, sv, si, ssrc, sdeps, stgts, some f, smp⟩
    else if k = "manifest_path" then
      match smp with
      | some _ => .error "duplicate field manifest_path"
      | none =>
        match decodeString v with
        | .error e => .error e
        | .ok s => .ok ⟨sn, sv, si, ssrc, sdeps, stgts, sfeat, some s⟩
    else .ok ⟨sn, sv, si, ssrc, sdeps, stgts, sfeat, smp⟩

/-- Decode a `Package`; `source` is an `Option` field defaulting to `none`,
all other fields are required. -/
def decodePackage : Json → Except String Package
  | .obj ms =>
    (match foldFields stepPackage {} ms with
    | .error e => .error e
    | .ok st =>
      match st.name with
      | none => .error "missing field name"
      | some name =>
        match st.version with
        | none => .error "missing field version"
        | some version =>
          match st.id with
          | none => .error "missing field id"
          | some id =>
            match st.dependencies with
            | none => .error "missing field dependencies"
            | some dependencies =>
              match st.targets with
              | none => .error "missing field targets"
              | some targets =>
                match st.features with
                | none => .error "missing field features"
                | some features =>
                  match st.manifest_path with
                  | none => .error "missing field manifest_path"
                  | some manifest_path =>
                    .ok ⟨name, version, id, st.source.getD none, dependencies,
                        targets, features, manifest_path⟩)
  | _ => .error "invalid type: expected map"

/-- Decode a JSON array of packages. -/
def decodePackageListJ : Json → Except String (List Package)
  | .arr xs => decodeListWith decodePackage xs
  | _ => .error "invalid type: expected sequence"

/-- Partially filled fields of a `Node` during decoding. -/
structure NodeSlots where
  id : Option String := none
  dependencies : Option (List String) := none
deriving DecidableEq

/-- One member step of the `Node` visitor. -/
def stepNode : NodeSlots → String → Json → Except String NodeSlots
  | ⟨si, sd⟩, k, v =>
    if k = "id" then
      match si with
      | some _ => .error "duplicate field id"
      | none =>
        match decodeString v with
        | .error e => .error e
        | .ok s => .ok ⟨some s, sd⟩
    else if k = "dependencies" then
      match sd with
      | some _ => .error "duplicate field dependencies"
      | none =>
        match decodeStringListJ v with
        | .error e => .error e
        | .ok l => .ok ⟨si, some l⟩
    else .ok ⟨si, sd⟩

/-- Decode a `Node`; both fields are required. -/
def decodeNode : Json → Except String Node
  | .obj ms =>
    (match foldFields stepNode {} ms with
    | .error e => .error e
    | .ok st =>
      match st.id with
      | none => .error "missing field id"
      | some id =>
        match st.dependencies with
        | none => .error "missing field dependencies"
        | some dependencies => .ok ⟨id, dependencies⟩)
  | _ => .error "invalid type: expected map"

/-- Decode a JSON array of nodes. -/
def decodeNodeListJ : Json → Except String (List Node)
  | .arr xs => decodeListWith decodeNode xs
  | _ => .error "invalid type: expected sequence"

/-- Partially filled fields of a `Resolve` during decoding. -/
structure ResolveSlots where
  nodes : Option (List Node) := none
deriving DecidableEq

/-- One member step of the `Resolve` visitor. -/
def stepResolve : ResolveSlots → String → Json → Except String ResolveSlots
  | ⟨snodes⟩, k, v =>
    if k = "nodes" then
      match snodes with
      | some _ => .error "duplicate field nodes"
      | none =>
        match decodeNodeListJ v with
        | .error e => .error e
        | .ok l => .ok ⟨some l⟩
    else .ok ⟨snodes⟩

/-- Decode a `Resolve`; `nodes` is required. -/
def decodeResolve : Json → Except String Resolve
  | .obj ms =>
    (match foldFields stepResolve {} ms with
    | .error e => .error e
    | .ok st =>
      match st.nodes with
      | none => .error "missing field nodes"
      | some nodes => .ok ⟨nodes⟩)
  | _ => .error "invalid type: expected map"

/-- Decode an optional resolve graph (serde `Option<Resolve>`). -/
def decodeOptResolveJ : Json → Except String (Option Resolve) :=
  decodeOptWith decodeResolve

/-- Partially filled fields of a `Metadata` during decoding. -/
structure MetadataSlots where
  packages : Option (List Package) := none
  workspace_members : Option (List String) := none
  resolve : Option (Option Resolve) := none
  version : Option Nat := none
deriving DecidableEq

/-- One member step of the `Metadata` visitor. -/
def stepMetadata : MetadataSlots → String → Json → Except String MetadataSlots
  | ⟨sp, swm, sres, sver⟩, k, v =>
    if k = "packages" then
      match sp with
      | some _ => .error "duplicate field packages"
      | none =>
        match decodePackageListJ v with
        | .error e => .error e
        | .ok l => .ok ⟨some l, swm, sres, sver⟩
    else if k = "workspace_members" then
      match swm with
      | some _ => .error "duplicate field workspace_members"
      | none =>
        match decodeStringListJ v with
        | .error e => .error e
        | .ok l => .ok ⟨sp, some l, sres, sver⟩
    else if k = "resolve" then
      match sres with
      | some _ => .error "duplicate field resolve"
      | none =>
        match decodeOptResolveJ v with
        | .error e => .error e
        | .ok r => .ok ⟨sp, swm, some r, sver⟩
    else if k = "version" then
      match sver with
      | some _ => .error "duplicate field version"
      | none =>
        match decodeNat v with
        | .error e => .error e
        | .ok n => .ok ⟨sp, swm, sres, some n⟩
    else .ok ⟨sp, swm, sres, sver⟩

/-- Decode a `Metadata`; `packages` and `version` are required,
`workspace_members` is `#[serde(default)]` (empty list) and `resolve` is an
`Option` field defaulting to `none`. -/
def decodeMetadata : Json → Except String Metadata
  | .obj ms =>
    (match foldFields stepMetadata {} ms with
    | .error e => .error e
    | .ok st =>
      match st.packages with
      | none => .error "missing field packages"
      | some packages =>
        match st.version with
        | none => .error "missing field version"
        | some version =>
          .ok ⟨packages, st.workspace_members.getD [], st.resolve.getD none, version⟩)
  | _ => .error "invalid type: expected map"

/-! ### Invocation construction (`metadata_deps`, src/src/lib.rs lines 123-135) -/

/-- `env::var("CARGO").unwrap_or_else(|_| String::from("cargo"))`: the
executable name, from the `CARGO` environment variable when set. -/
def resolveCargo (cargo_env : Option String) : String :=
  cargo_env.getD "cargo"

/-- The argument vector `metadata_deps` hands to the spawned command:
`metadata`, then `--no-deps` when `deps` is false, then always
`--format-version 1`, then `--manifest-path <p>` when a manifest path is
given. -/
def renderArgs (manifest_path : Option String) (deps : Bool) : List String :=
  let args := ["metadata"]
  let args := if !deps then args ++ ["--no-deps"] else args
  let args := args ++ ["--format-version", "1"]
  match manifest_path with
  | some p => args ++ ["--manifest-path", p]
  | none => args

/-! ### UTF-8 decoding (`str::from_utf8` on the captured stdout bytes) -/

/-- A UTF-8 continuation byte. -/
def isCont (b : Nat) : Bool := 0x80 ≤ b && b ≤ 0xBF

/-- Decode a byte sequence as UTF-8 exactly as `str::from_utf8` validates
it: two-byte leads are `C2..DF`, three-byte leads `E0..EF` with the `E0`
and `ED` continuation restrictions (no overlongs, no surrogates), four-byte
leads `F0..F4` with the `F0` and `F4` restrictions (no overlongs, nothing
above `U+10FFFF`); everything else is invalid. -/
def utf8Decode : List Nat → Option (List Char)
  | [] => some []
  | b :: rest =>
    if b ≤ 0x7F then
      match utf8Decode rest with
      | some cs => some (Char.ofNat b :: cs)
      | none => none
    else if b < 0xC2 then none
    else if b ≤ 0xDF then
      match rest with
      | c1 :: r =>
        if isCont c1 then
          match utf8Decode r with
          | some cs => some (Char.ofNat ((b - 0xC0) * 0x40 + (c1 - 0x80)) :: cs)
          | none => none
        else none
      | [] => none
    else if b ≤ 0xEF then
      match rest with
      | c1 :: c2 :: r =>
        let ok1 :=
          if b = 0xE0 then decide (0xA0 ≤ c1) && decide (c1 ≤ 0xBF)
          else if b = 0xED then decide (0x80 ≤ c1) && decide (c1 ≤ 0x9F)
          else isCont c1
        if ok1 && isCont c2 then
          match utf8Decode r with
          | some cs =>
            some (Char.ofNat ((b - 0xE0) * 0x1000 + (c1 - 0x80) * 0x40 + (c2 - 0x80)) :: cs)
          | none => none
        else none
      | _ => none
    else if b ≤ 0xF4 then
      match rest with
      | c1 :: c2 :: c3 :: r =>
        let ok1 :=
          if b = 0xF0 then decide (0x90 ≤ c1) && decide (c1 ≤ 0xBF)
          else if b = 0xF4 then decide (0x80 ≤ c1) && decide (c1 ≤ 0x8F)
          else isCont c1
        if ok1 && isCont c2 && isCont c3 then
          match utf8Decode r with
          | some cs =>
            some (Char.ofNat ((b - 0xF0) * 0x40000 + (c1 - 0x80) * 0x1000 +
              (c2 - 0x80) * 0x40 + (c3 - 0x80)) :: cs)
          | none => none
        else none
      | _ => none
    else none

/-! ### JSON syntax (the parsing half of `serde_json::from_str`)

serde_json is an external crate; its syntax layer is modelled from the JSON
grammar it implements: strict whitespace, no trailing commas, raw control
characters rejected inside strings, escape sequences including surrogate
pairs, and no leading zeros in numbers.  Numbers are restricted to
integers, matching the `Json.num` model. -/

/-- JSON whitespace. -/
def isWsChar (c : Char) : Bool := c = ' ' || c = '\t' || c = '\n' || c = '\r'

/-- Drop leading JSON whitespace. -/
def skipWs : List Char → List Char
  | c :: cs => if isWsChar c then skipWs cs else c :: cs
  | [] => []

/-- An ASCII digit. -/
def isDigitChar (c : Char) : Bool := '0' ≤ c && c ≤ '9'

/-- The value of one hex digit (by code point: `0-9`, `a-f`, `A-F`). -/
def hexDigit (c : Char) : Option Nat :=
  let n := c.toNat
  if 48 ≤ n ∧ n ≤ 57 then some (n - 48)
  else if 97 ≤ n ∧ n ≤ 102 then some (n - 87)
  else if 65 ≤ n ∧ n ≤ 70 then some (n - 55)
  else none

/-- The value of a four-hex-digit escape. -/
def hexQuad (a b c d : Char) : Option Nat :=
  match hexDigit a, hexDigit b, hexDigit c, hexDigit d with
  | some va, some vb, some vc, some vd => some (((va * 16 + vb) * 16 + vc) * 16 + vd)
  | _, _, _, _ => none

/-- Single-character escapes (`\b`, `\f`, `\n`, `\r`, `\t` by code
point; quote, slash and backslash stand for themselves). -/
def escChar (e : Char) : Option Char :=
  if e = '"' ∨ e = '/' ∨ e = '\\' then some e
  else if e = 'b' then some (Char.ofNat 8)
  else if e = 'f' then some (Char.ofNat 12)
  else if e = 'n' then some (Char.ofNat 10)
  else if e = 'r' then some (Char.ofNat 13)
  else if e = 't' then some (Char.ofNat 9)
  else none

/-- Match an expected run of characters, returning the remainder. -/
def keyword (w : List Char) (cs : List Char) : Option (List Char) :=
  match w, cs with
  | [], rest => some rest
  | e :: es, c :: rest => if c = e then keyword es rest else none
  | _ :: _, [] => none

/-- Parse the rest of a JSON string after its opening quote.  Raw control
characters are rejected, `\uXXXX` escapes with a leading surrogate must be
followed by a trailing surrogate escape, and lone surrogates are
rejected. -/
def parseStringBody (acc : List Char) : List Char → Option (String × List Char)
  | '"' :: rest => some (String.mk acc.reverse, rest)
  | '\\' :: 'u' :: a :: b :: c :: d :: rest =>
    (match hexQuad a b c d with
    | none => none
    | some n =>
      if n < 0xD800 then parseStringBody (Char.ofNat n :: acc) rest
      else if n ≤ 0xDBFF then
        match rest with
        | '\\' :: 'u' :: a2 :: b2 :: c2 :: d2 :: rest2 =>
          (match hexQuad a2 b2 c2 d2 with
          | none => none
          | some m =>
            if 0xDC00 ≤ m ∧ m ≤ 0xDFFF then
              parseStringBody
                (Char.ofNat (0x10000 + (n - 0xD800) * 0x400 + (m - 0xDC00)) :: acc) rest2
            else none)
        | _ => none
      else if n ≤ 0xDFFF then none
      else parseStringBody (Char.ofNat n :: acc) rest)
  | '\\' :: e :: rest =>
    (match escChar e with
    | some ch => parseStringBody (ch :: acc) rest
    | none => none)
  | c :: rest => if c.toNat < 0x20 then none else parseStringBody (c :: acc) rest
  | [] => none

/-- Split off a run of leading digits. -/
def takeDigits : List Char → List Char × List Char
  | c :: cs =>
    if isDigitChar c then
      let (ds, r) := takeDigits cs
      (c :: ds, r)
    else ([], c :: cs)
  | [] => ([], [])

/-- Numeric value of a digit run (accumulator recursion, code point 48 is
`0`). -/
def digitsToNatAux (acc : Nat) : List Char → Nat
  | [] => acc
  | d :: ds => digitsToNatAux (acc * 10 + (d.toNat - 48)) ds

/-- Numeric value of a digit run. -/
def digitsToNat (ds : List Char) : Nat :=
  digitsToNatAux 0 ds

/-- Parse a JSON integer: optional minus, no leading zeros, and (as the
model holds only integers) no fraction or exponent part. -/
def parseIntNumber (cs : List Char) : Option (Int × List Char) :=
  let (neg, cs1) : Bool × List Char :=
    match cs with
    | '-' :: r => (true, r)
    | _ => (false, cs)
  match cs1 with
  | c :: r =>
    if isDigitChar c then
      if c = '0' then
        match r with
        | c2 :: _ =>
          if isDigitChar c2 || c2 = '.' || c2 = 'e' || c2 = 'E' then none
          else some (0, r)
        | [] => some (0, r)
      else
        let (ds, r2) := takeDigits r
        match r2 with
        | c2 :: _ =>
          if c2 = '.' || c2 = 'e' || c2 = 'E' then none
          else
            let n : Int := digitsToNat (c :: ds)
            some (if neg then -n else n, r2)
        | [] =>
          let n : Int := digitsToNat (c :: ds)
          some (if neg then -n else n, r2)
    else none
  | [] => none

mutual

/-- Parse one JSON value (fuel-driven recursion; the top-level caller
supplies more fuel than the input length, which bounds the depth). -/
def parseValue : Nat → List Char → Option (Json × List Char)
  | 0, _ => none
  | fuel + 1, cs =>
    match skipWs cs with
    | 'n' :: r =>
      (match keyword ['u', 'l', 'l'] r with
      | some r2 => some (.null, r2)
      | none => none)
    | 't' :: r =>
      (match keyword ['r', 'u', 'e'] r with
      | some r2 => some (.bool true, r2)
      | none => none)
    | 'f' :: r =>
      (match keyword ['a', 'l', 's', 'e'] r with
      | some r2 => some (.bool false, r2)
      | none => none)
    | '"' :: r =>
      (match parseStringBody [] r with
      | some (s, r2) => some (.str s, r2)
      | none => none)
    | '[' :: r =>
      (match skipWs r with
      | ']' :: r2 => some (.arr [], r2)
      | r2 =>
        match parseItems fuel r2 with
        | some (es, r3) => some (.arr es, r3)
        | none => none)
    | '{' :: r =>
      (match skipWs r with
      | '}' :: r2 => some (.obj [], r2)
      | r2 =>
        match parsePairs fuel r2 with
        | some (ms, r3) => some (.obj ms, r3)
        | none => none)
    | c :: r =>
      if c = '-' || isDigitChar c then
        match parseIntNumber (c :: r) with
        | some (n, r2) => some (.num n, r2)
        | none => none
      else none
    | [] => none

/-- Parse one or more comma-separated array items up to `]`. -/
def parseItems : Nat → List Char → Option (List Json × List Char)
  | 0, _ => none
  | fuel + 1, cs =>
    match parseValue fuel cs with
    | none => none
    | some (v, r) =>
      match skipWs r with
      | ',' :: r2 =>
        (match parseItems fuel r2 with
        | some (vs, r3) => some (v :: vs, r3)
        | none => none)
      | ']' :: r2 => some ([v], r2)
      | _ => none

/-- Parse one or more comma-separated object members up to `}`. -/
def parsePairs : Nat → List Char → Option (List (String × Json) × List Char)
  | 0, _ => none
  | fuel + 1, cs =>
    match skipWs cs with
    | '"' :: r =>
      (match parseStringBody [] r with
      | none => none
      | some (key, r1) =>
        match skipWs r1 with
        | ':' :: r2 =>
          (match parseValue fuel r2 with
          | none => none
          | some (v, r3) =>
            match skipWs r3 with
            | ',' :: r4 =>
              (match parsePairs fuel r4 with
              | some (ms, r5) => some ((key, v) :: ms, r5)
              | none => none)
            | '}' :: r4 => some ([(key, v)], r4)
            | _ => none)
        | _ => none)
    | _ => none

end

/-- Parse a complete JSON document; trailing whitespace is allowed, any
other trailing text is an error. -/
def parseJson (s : String) : Option Json :=
  match parseValue (s.length + 1) s.data with
  | some (j, r) => if (skipWs r).isEmpty then some j else none
  | none => none

/-! ### The process and decode pipeline (`metadata_deps`, lines 136-139) -/

/-- The source's error type: `error_chain!` with the foreign links
`Io(std::io::Error)` (spawn/execution failure), `Utf8(str::Utf8Error)`
(stdout not valid UTF-8) and `Json(serde_json::Error)` (JSON syntax or
structure mismatch).  There is no variant carrying a tool-reported
diagnostic. -/
inductive ErrorKind where
  | io
  | utf8
  | json
deriving DecidableEq

/-- A finished process as `std::process::Output`: exit status and the two
captured byte streams. -/
structure Output where
  status_success : Bool
  stdout : List Nat
  stderr : List Nat

/-- The decode half of `metadata_deps`: `from_utf8(&output.stdout)?` then
`serde_json::from_str(stdout)?`.  The exit status and stderr of the process
are never inspected. -/
def runDecode (output : Output) : Except ErrorKind Metadata :=
  match utf8Decode output.stdout with
  | none => .error .utf8
  | some chars =>
    match parseJson (String.mk chars) with
    | none => .error .json
    | some j =>
      match decodeMetadata j with
      | .error _ => .error .json
      | .ok meta => .ok meta

/-- `metadata_deps`: resolve the executable, render the arguments, run the
command (`world` stands for the operating system: it maps an invocation to
either a spawn failure or a finished process), and decode stdout. -/
def metadata_deps (manifest_path : Option String) (deps : Bool) (cargo_env : Option String)
    (world : String → List String → Except Unit Output) : Except ErrorKind Metadata :=
  let cargo := resolveCargo cargo_env
  match world cargo (renderArgs manifest_path deps) with
  | .error _ => .error .io
  | .ok output => runDecode output

/-- `metadata`: obtain metadata without fetching dependencies; the source
delegates to `metadata_deps(manifest_path, false)`. -/
def metadata (manifest_path : Option String) (cargo_env : Option String)
    (world : String → List String → Except Unit Output) : Except ErrorKind Metadata :=
  metadata_deps manifest_path false cargo_env world

/-- ASCII bytes of a string (used to state concrete process outputs). -/
def asciiBytes (s : String) : List Nat :=
  s.data.map Char.toNat

/-- Remove every member with the given key from an object's member list
(used to state what decoding does when a field is absent). -/
def eraseField (key : String) (ms : List (String × Json)) : List (String × Json) :=
  ms.filter (fun m => m.1 != key)

/-! ### Concrete documents used in counterexamples and witnesses -/

/-- A minimal root document with the given `version` value. -/
def minimalDoc (n : Int) : Json :=
  .obj [("packages", .arr []), ("resolve", .null), ("version", .num n)]

/-- A root document whose workspace member and resolve-node ids match no
package id (`packages` is empty). -/
def danglingDoc : Json :=
  .obj [("packages", .arr []),
    ("workspace_members", .arr [.str "w"]),
    ("resolve", .obj [("nodes",
      .arr [.obj [("id", .str "n"), ("dependencies", .arr [.str "d"])]])]),
    ("version", .num 1)]

/-- A minimal package document with the given `id`. -/
def pkgMs (s : String) : List (String × Json) :=
  [("name", .str "p"), ("version", .str "0.1.0"), ("id", .str s),
    ("dependencies", .arr []), ("targets", .arr []), ("features", .obj []),
    ("manifest_path", .str "/m/Cargo.toml")]

def pkgDoc (s : String) : Json :=
  .obj (pkgMs s)

/-- The members of a minimal target document. -/
def tgtMs : List (String × Json) :=
  [("name", .str "t"), ("kind", .arr [.str "lib"]),
    ("crate_types", .arr [.str "lib"]), ("src_path", .str "s.rs")]

/-- The members of a minimal root document with an empty resolve graph. -/
def rootMs : List (String × Json) :=
  [("packages", .arr []), ("workspace_members", .arr [.str "w"]),
    ("resolve", .obj [("nodes", .arr [])]), ("version", .num 1)]

/-- The package `pkgDoc s` decodes to. -/
def pkgVal (s : String) : Package :=
  ⟨"p", "0.1.0", s, none, [], [], [], "/m/Cargo.toml"⟩

/-- A root document holding the same package (same `id`) twice. -/
def dupIdDoc (s : String) : Json :=
  .obj [("packages", .arr [pkgDoc s, pkgDoc s]), ("version", .num 1)]

/-- The process output of a failed `cargo metadata` run: non-zero exit, a
diagnostic on stderr, nothing on stdout (spec §4.3 and tests/selftest.rs
`error1`). -/
def toolFailureOutput : Output :=
  ⟨false, [], asciiBytes "error: the manifest-path must be a path to a Cargo.toml file\n"⟩

/-! ### Unknown-member extensions (forward compatibility)

`Ext` describes how a document may grow extra, unrecognized object members:
at an object decoded as a struct, members whose key is outside the struct's
declared field set may be interleaved anywhere, recognized members keep
their keys with their values extended recursively, and all other positions
(scalars, the `features` map whose every member is recognized, array
elements pointwise) are unchanged.  `Ty` names the decoder used at each
position of the schema and `Ty.fields` gives each struct's declared
fields. -/

/-- The schema positions of the data model, as decoded by this file's
decoders. -/
inductive Ty where
  | str
  | nat
  | depkind
  | features
  | list (t : Ty)
  | opt (t : Ty)
  | metadata
  | package
  | target
  | node
  | resolve
  | dependency
deriving DecidableEq

/-- The declared fields of `Target`, in `stepTarget`'s recognition order. -/
def targetFields : List (String × Ty) :=
  [("name", .str), ("kind", .list .str), ("crate_types", .list .str), ("src_path", .str)]

/-- The declared fields of `Package`. -/
def packageFields : List (String × Ty) :=
  [("name", .str), ("version", .str), ("id", .str), ("source", .opt .str),
    ("dependencies", .list .dependency), ("targets", .list .target),
    ("features", .features), ("manifest_path", .str)]

/-- The declared fields of `Node`. -/
def nodeFields : List (String × Ty) :=
  [("id", .str), ("dependencies", .list .str)]

/-- The declared fields of `Resolve`. -/
def resolveFields : List (String × Ty) :=
  [("nodes", .list .node)]

/-- The declared fields of `Metadata`. -/
def metadataFields : List (String × Ty) :=
  [("packages", .list .package), ("workspace_members", .list .str),
    ("resolve", .opt .resolve), ("version", .nat)]

/-- The declared fields of `Dependency`. -/
def dependencyFields : List (String × Ty) :=
  [("name", .str), ("req", .str), ("kind", .depkind)]

/-- The declared field set of each struct position (`none` for non-struct
positions). -/
def Ty.fields : Ty → Option (List (String × Ty))
  | .metadata => some metadataFields
  | .package => some packageFields
  | .target => some targetFields
  | .node => some nodeFields
  | .resolve => some resolveFields
  | .dependency => some dependencyFields
  | _ => none

/-- Look a key up in a declared field set. -/
def lookupField (k : String) : List (String × Ty) → Option Ty
  | [] => none
  | (k', t) :: rest => if k' = k then some t else lookupField k rest

/-- An index for `Ext`: a schema position, the elements of an array at a
position, or the member list of a struct with declared fields `fs`. -/
inductive Sch where
  | ty (t : Ty)
  | listElems (t : Ty)
  | members (fs : List (String × Ty))

/-- `Ext s j j'`: the document `j'` is obtained from `j` by adding extra,
unrecognized object members (keys outside the declared field set) at
struct-decoded objects, anywhere in the tree. -/
inductive Ext : Sch → Json → Json → Prop where
  | refl (s : Sch) (j : Json) : Ext s j j
  | arr (t : Ty) (xs ys : List Json) :
      Ext (.listElems t) (.arr xs) (.arr ys) → Ext (.ty (.list t)) (.arr xs) (.arr ys)
  | elemsNil (t : Ty) : Ext (.listElems t) (.arr []) (.arr [])
  | elemsCons (t : Ty) (x y : Json) (xs ys : List Json) :
      Ext (.ty t) x y → Ext (.listElems t) (.arr xs) (.arr ys) →
      Ext (.listElems t) (.arr (x :: xs)) (.arr (y :: ys))
  | someVal (t : Ty) (j j' : Json) :
      j ≠ .null → j' ≠ .null → Ext (.ty t) j j' → Ext (.ty (.opt t)) j j'
  | struct (t : Ty) (fs : List (String × Ty)) (ms ms' : List (String × Json)) :
      t.fields = some fs → Ext (.members fs) (.obj ms) (.obj ms') →
      Ext (.ty t) (.obj ms) (.obj ms')
  | memsNil (fs : List (String × Ty)) : Ext (.members fs) (.obj []) (.obj [])
  | memsAdd (fs : List (String × Ty)) (k : String) (v : Json)
      (ms ms' : List (String × Json)) :
      lookupField k fs = none → Ext (.members fs) (.obj ms) (.obj ms') →
      Ext (.members fs) (.obj ms) (.obj ((k, v) :: ms'))
  | memsKnown (fs : List (String × Ty)) (k : String) (t : Ty) (v v' : Json)
      (ms ms' : List (String × Json)) :
      lookupField k fs = some t → Ext (.ty t) v v' →
      Ext (.members fs) (.obj ms) (.obj ms') →
      Ext (.members fs) (.obj ((k, v) :: ms)) (.obj ((k, v') :: ms'))
  | memsUnknown (fs : List (String × Ty)) (k : String) (v : Json)
      (ms ms' : List (String × Json)) :
      lookupField k fs = none → Ext (.members fs) (.obj ms) (.obj ms') →
      Ext (.members fs) (.obj ((k, v) :: ms)) (.obj ((k, v) :: ms'))

/-- The decoder at a schema position returns the same result on an extended
document (stated per position; used as the motive for `Ext`). -/
def TyDecEq : Ty → Json → Json → Prop
  | .str, j, j' => decodeString j' = decodeString j
  | .nat, j, j' => decodeNat j' = decodeNat j
  | .depkind, j, j' => decodeKindVal j' = decodeKindVal j
  | .features, j, j' => decodeFeatures j' = decodeFeatures j
  | .metadata, j, j' => decodeMetadata j' = decodeMetadata j
  | .package, j, j' => decodePackage j' = decodePackage j
  | .target, j, j' => decodeTarget j' = decodeTarget j
  | .node, j, j' => decodeNode j' = decodeNode j
  | .resolve, j, j' => decodeResolve j' = decodeResolve j
  | .dependency, j, j' => decodeDependency j' = decodeDependency j
  | .list .str, j, j' => decodeStringListJ j' = decodeStringListJ j
  | .list .package, j, j' => decodePackageListJ j' = decodePackageListJ j
  | .list .target, j, j' => decodeTargetListJ j' = decodeTargetListJ j
  | .list .node, j, j' => decodeNodeListJ j' = decodeNodeListJ j
  | .list .dependency, j, j' => decodeDependencyListJ j' = decodeDependencyListJ j
  | .list _, _, _ => True
  | .opt .str, j, j' => decodeOptStringJ j' = decodeOptStringJ j
  | .opt .resolve, j, j' => decodeOptResolveJ j' = decodeOptResolveJ j
  | .opt _, _, _ => True

/-- Element-list analogue of `TyDecEq` for the array element types the
schema uses. -/
def ElemsDecEq : Ty → Json → Json → Prop
  | .str, .arr xs, .arr ys =>
      decodeListWith decodeString ys = decodeListWith decodeString xs
  | .package, .arr xs, .arr ys =>
      decodeListWith decodePackage ys = decodeListWith decodePackage xs
  | .target, .arr xs, .arr ys =>
      decodeListWith decodeTarget ys = decodeListWith decodeTarget xs
  | .node, .arr xs, .arr ys =>
      decodeListWith decodeNode ys = decodeListWith decodeNode xs
  | .dependency, .arr xs, .arr ys =>
      decodeListWith decodeDependency ys = decodeListWith decodeDependency xs
  | _, _, _ => True

/-- Member-list analogue of `TyDecEq`: extended members fold identically
through every struct visitor whose field set is `fs`. -/
def MemsDecEq : List (String × Ty) → Json → Json → Prop
  | fs, .obj ms, .obj ms' =>
      (fs = targetFields →
        ∀ st, foldFields stepTarget st ms' = foldFields stepTarget st ms) ∧
      (fs = packageFields →
        ∀ st, foldFields stepPackage st ms' = foldFields stepPackage st ms) ∧
      (fs = nodeFields →
        ∀ st, foldFields stepNode st ms' = foldFields stepNode st ms) ∧
      (fs = resolveFields →
        ∀ st, foldFields stepResolve st ms' = foldFields stepResolve st ms) ∧
      (fs = metadataFields →
        ∀ st, foldFields stepMetadata st ms' = foldFields stepMetadata st ms) ∧
      (fs = dependencyFields →
        ∀ st, foldFields stepDependency st ms' = foldFields stepDependency st ms)
  | _, _, _ => True

/-- The motive for `Ext`: decoder equality at each index. -/
def DecEq : Sch → Json → Json → Prop
  | .ty t, j, j' => TyDecEq t j j'
  | .listElems t, j, j' => ElemsDecEq t j j'
  | .members fs, j, j' => MemsDecEq fs j j'

/-! ### Claim theorems -/

/-- C4: the invocation is built from the `CARGO` environment variable when
set (else the fixed name `cargo`), with arguments `metadata`, then
`--no-deps` exactly when `deps` is false, then `--format-version 1`, then
`--manifest-path <mp>` exactly when a manifest path is given. -/
theorem invocation_contract (mp : Option String) (deps : Bool) :
    (∀ s, resolveCargo (some s) = s) ∧ resolveCargo none = "cargo" ∧
    renderArgs mp deps =
      ["metadata"] ++ (if deps then [] else ["--no-deps"]) ++ ["--format-version", "1"] ++
        (match mp with
        | some p => ["--manifest-path", p]
        | none => []) := by
  refine ⟨fun s => rfl, rfl, ?_⟩
  cases deps <;> cases mp <;> rfl

/-- C9: the no-dependency entry point `metadata mp` behaves identically to
`metadata_deps mp false` for every manifest path, environment and process
outcome. -/
theorem metadata_is_metadata_deps_false (mp : Option String) (cargo_env : Option String)
    (world : String → List String → Except Unit Output) :
    metadata mp cargo_env world = metadata_deps mp false cargo_env world := rfl

/-- C2 counterexample: a document whose `version` field is 2 (≠ 1) decodes
successfully — the claimed decode error does not happen. -/
theorem version_two_accepted : decodeMetadata (minimalDoc 2) = .ok ⟨[], [], none, 2⟩ := rfl

/-- C2 amended: decoding requires `version` to be present as an integer
representable in `usize`, but compares it with nothing: every
representable value, not just 1, is silently accepted (the schema version
is pinned only through the `--format-version 1` command-line argument). -/
theorem version_never_validated (n : Nat) (h : (n : Int) ≤ 18446744073709551615) :
    decodeMetadata (minimalDoc (n : Int)) = .ok ⟨[], [], none, n⟩ := by
  have hneg : ¬ ((n : Int) < 0) := by exact_mod_cast Int.not_lt.mpr (Int.natCast_nonneg n)
  have hbig : ¬ ((18446744073709551615 : Int) < (n : Int)) := Int.not_lt.mpr h
  simp [minimalDoc, decodeMetadata, foldFields, stepMetadata, decodePackageListJ,
    decodeListWith, decodeOptResolveJ, decodeOptWith, decodeNat, hneg, hbig]

/-- C2 amended witness: the in-range version 7 (≠ 1) is accepted. -/
theorem version_never_validated_witness :
    decodeMetadata (minimalDoc 7) = .ok ⟨[], [], none, 7⟩ :=
  version_never_validated 7 (by decide)

/-- C6 counterexample: a successfully returned graph whose workspace member
`"w"` and resolve node `"n"` (with dangling dependency id `"d"`) occur
among no package ids — the claimed invariants do not hold of returned
graphs and the dangling id is not surfaced as an error. -/
theorem dangling_ids_accepted :
    decodeMetadata danglingDoc = .ok ⟨[], ["w"], some ⟨[⟨"n", ["d"]⟩]⟩, 1⟩ ∧
    ([] : List Package).map Package.id = [] := ⟨rfl, rfl⟩

/-- C6 amended: the pipeline performs no cross-reference validation:
workspace-member entries and resolve-node ids (and their dependency ids)
need not occur among the package ids, and a dangling id is decoded and
returned silently, for arbitrary id strings. -/
theorem no_cross_reference_validation (w b c : String) :
    decodeMetadata (.obj [("packages", .arr []),
      ("workspace_members", .arr [.str w]),
      ("resolve", .obj [("nodes",
        .arr [.obj [("id", .str b), ("dependencies", .arr [.str c])]])]),
      ("version", .num 1)]) = .ok ⟨[], [w], some ⟨[⟨b, [c]⟩]⟩, 1⟩ := rfl

/-- C7 counterexample: a document with two packages of identical id `"a"`
decodes successfully, so the returned `packages[*].id` are not pairwise
distinct. -/
theorem duplicate_package_ids_accepted :
    decodeMetadata (dupIdDoc "a") = .ok ⟨[pkgVal "a", pkgVal "a"], [], none, 1⟩ ∧
    ¬ ((pkgVal "a").id ≠ (pkgVal "a").id) := ⟨rfl, by simp⟩

/-- C7 amended: the decode pipeline does not enforce uniqueness of package
ids; a document repeating one package id decodes successfully and the
duplicate entries are returned as-is, for every id string. -/
theorem duplicate_package_ids_general (s : String) :
    decodeMetadata (dupIdDoc s) = .ok ⟨[pkgVal s, pkgVal s], [], none, 1⟩ := rfl

/-- C1: at a failing invocation (non-zero exit, diagnostic on stderr, empty
stdout) the code returns a `Json` decode error — the exit status and the
captured stderr are never inspected, and the error type has no variant
carrying a tool-reported message (only `io`, `utf8` and `json`), contrary
to the spec and to tests/selftest.rs (`error1`/`error2`). -/
theorem tool_failure_misclassified :
    metadata_deps (some "foo") false none (fun _ _ => .ok toolFailureOutput) = .error .json ∧
    ∀ e : ErrorKind, e = .io ∨ e = .utf8 ∨ e = .json := by
  refine ⟨rfl, fun e => ?_⟩
  cases e
  · exact .inl rfl
  · exact .inr (.inl rfl)
  · exact .inr (.inr rfl)

/-- C8: whenever the spawned process runs to completion with a successful
exit status but its captured stdout bytes are not valid UTF-8, the call
fails with the `utf8` (encoding) error. -/
theorem invalid_utf8_reports_encoding_error (mp : Option String) (deps : Bool)
    (cargo_env : Option String) (world : String → List String → Except Unit Output)
    (out : Output)
    (hrun : world (resolveCargo cargo_env) (renderArgs mp deps) = .ok out)
    (_hstatus : out.status_success = true)
    (hinvalid : utf8Decode out.stdout = none) :
    metadata_deps mp deps cargo_env world = .error .utf8 := by
  simp only [metadata_deps]
  rw [hrun]
  simp [runDecode, hinvalid]

/-! ### Field-absence behaviour (C5, C10)

`foldFields_erase`: removing every occurrence of one key from a member
list makes the fold behave as if that slot were never touched.  `clear`
sets the key's slot back to `none`; the two hypotheses say the step
function for any other key commutes with clearing the slot, and that a
step on the key itself only changes the cleared slot. -/

theorem foldFields_erase {σ : Type} (step : σ → String → Json → Except String σ)
    (key : String) (clear : σ → σ)
    (h1 : ∀ st k v st₂, k ≠ key → step st k v = .ok st₂ →
      step (clear st) k v = .ok (clear st₂))
    (h2 : ∀ st v st₂, step st key v = .ok st₂ → clear st₂ = clear st)
    (ms : List (String × Json)) :
    ∀ st st', foldFields step st ms = .ok st' →
      foldFields step (clear st) (eraseField key ms) = .ok (clear st') := by
  induction ms with
  | nil =>
    intro st st' h
    simp only [foldFields, Except.ok.injEq] at h
    subst h
    simp [eraseField, foldFields]
  | cons hd tl ih =>
    intro st st' h
    obtain ⟨k, v⟩ := hd
    simp only [foldFields] at h
    cases hstep : step st k v with
    | error e => rw [hstep] at h; exact absurd h (by simp)
    | ok st₂ =>
      rw [hstep] at h
      by_cases hk : k = key
      · subst hk
        have ih' := ih st₂ st' h
        rw [h2 st v st₂ hstep] at ih'
        simpa [eraseField] using ih'
      · have hstep' := h1 st k v st₂ hk hstep
        have ih' := ih st₂ st' h
        simpa [eraseField, List.filter_cons, hk, foldFields, hstep'] using ih'

/-- `stepTarget` on a key other than `crate_types` commutes with clearing
the `crate_types` slot. -/
theorem stepTarget_clear_crate_types (st : TargetSlots) (k : String) (v : Json)
    (st₂ : TargetSlots) (hk : k ≠ "crate_types") (h : stepTarget st k v = .ok st₂) :
    stepTarget { st with crate_types := none } k v = .ok { st₂ with crate_types := none } := by
  obtain ⟨sn, sk, sct, ssp⟩ := st
  show stepTarget ⟨sn, sk, none, ssp⟩ k v = Except.ok { st₂ with crate_types := none }
  simp only [stepTarget] at h ⊢
  split_ifs at h ⊢ <;>
    first
      | contradiction
      | (injection h with h2; subst h2; rfl)
      | (split at h <;>
          first
            | contradiction
            | (injection h with h2; subst h2; rfl)
            | (split at h <;>
                first
                  | contradiction
                  | (injection h with h2; subst h2; rfl)))

/-- A `stepTarget` on `crate_types` itself changes only that slot. -/
theorem stepTarget_key_crate_types (st : TargetSlots) (v : Json) (st₂ : TargetSlots)
    (h : stepTarget st "crate_types" v = .ok st₂) :
    ({ st₂ with crate_types := none } : TargetSlots) = { st with crate_types := none } := by
  obtain ⟨sn, sk, sct, ssp⟩ := st
  simp only [stepTarget, String.reduceEq, reduceIte] at h
  first
    | (injection h with h2; subst h2; rfl)
    | (split at h <;>
        first
          | contradiction
          | (injection h with h2; subst h2; rfl)
          | (split at h <;>
              first
                | contradiction
                | (injection h with h2; subst h2; rfl)))

/-- `stepTarget` on a key other than `kind` commutes with clearing the
`kind` slot. -/
theorem stepTarget_clear_kind (st : TargetSlots) (k : String) (v : Json)
    (st₂ : TargetSlots) (hk : k ≠ "kind") (h : stepTarget st k v = .ok st₂) :
    stepTarget { st with kind := none } k v = .ok { st₂ with kind := none } := by
  obtain ⟨sn, sk, sct, ssp⟩ := st
  show stepTarget ⟨sn, none, sct, ssp⟩ k v = Except.ok { st₂ with kind := none }
  simp only [stepTarget] at h ⊢
  split_ifs at h ⊢ <;>
    first
      | contradiction
      | (injection h with h2; subst h2; rfl)
      | (split at h <;>
          first
            | contradiction
            | (injection h with h2; subst h2; rfl)
            | (split at h <;>
                first
                  | contradiction
                  | (injection h with h2; subst h2; rfl)))

/-- A `stepTarget` on `kind` itself changes only that slot. -/
theorem stepTarget_key_kind (st : TargetSlots) (v : Json) (st₂ : TargetSlots)
    (h : stepTarget st "kind" v = .ok st₂) :
    ({ st₂ with kind := none } : TargetSlots) = { st with kind := none } := by
  obtain ⟨sn, sk, sct, ssp⟩ := st
  simp only [stepTarget, String.reduceEq, reduceIte] at h
  first
    | (injection h with h2; subst h2; rfl)
    | (split at h <;>
        first
          | contradiction
          | (injection h with h2; subst h2; rfl)
          | (split at h <;>
              first
                | contradiction
                | (injection h with h2; subst h2; rfl)))

/-- `stepTarget` on a key other than `src_path` commutes with clearing the
`src_path` slot. -/
theorem stepTarget_clear_src_path (st : TargetSlots) (k : String) (v : Json)
    (st₂ : TargetSlots) (hk : k ≠ "src_path") (h : stepTarget st k v = .ok st₂) :
    stepTarget { st with src_path := none } k v = .ok { st₂ with src_path := none } := by
  obtain ⟨sn, sk, sct, ssp⟩ := st
  show stepTarget ⟨sn, sk, sct, none⟩ k v = Except.ok { st₂ with src_path := none }
  simp only [stepTarget] at h ⊢
  split_ifs at h ⊢ <;>
    first
      | contradiction
      | (injection h with h2; subst h2; rfl)
      | (split at h <;>
          first
            | contradiction
            | (injection h with h2; subst h2; rfl)
            | (split at h <;>
                first
                  | contradiction
                  | (injection h with h2; subst h2; rfl)))

/-- A `stepTarget` on `src_path` itself changes only that slot. -/
theorem stepTarget_key_src_path (st : TargetSlots) (v : Json) (st₂ : TargetSlots)
    (h : stepTarget st "src_path" v = .ok st₂) :
    ({ st₂ with src_path := none } : TargetSlots) = { st with src_path := none } := by
  obtain ⟨sn, sk, sct, ssp⟩ := st
  simp only [stepTarget, String.reduceEq, reduceIte] at h
  first
    | (injection h with h2; subst h2; rfl)
    | (split at h <;>
        first
          | contradiction
          | (injection h with h2; subst h2; rfl)
          | (split at h <;>
              first
                | contradiction
                | (injection h with h2; subst h2; rfl)))

/-- `stepMetadata` on a key other than `workspace_members` commutes with
clearing the `workspace_members` slot. -/
theorem stepMetadata_clear_workspace_members (st : MetadataSlots) (k : String) (v : Json)
    (st₂ : MetadataSlots) (hk : k ≠ "workspace_members") (h : stepMetadata st k v = .ok st₂) :
    stepMetadata { st with workspace_members := none } k v =
      .ok { st₂ with workspace_members := none } := by
  obtain ⟨sp, swm, sres, sver⟩ := st
  show stepMetadata ⟨sp, none, sres, sver⟩ k v = Except.ok { st₂ with workspace_members := none }
  simp only [stepMetadata] at h ⊢
  split_ifs at h ⊢ <;>
    first
      | contradiction
      | (injection h with h2; subst h2; rfl)
      | (split at h <;>
          first
            | contradiction
            | (injection h with h2; subst h2; rfl)
            | (split at h <;>
                first
                  | contradiction
                  | (injection h with h2; subst h2; rfl)))

/-- A `stepMetadata` on `workspace_members` itself changes only that slot. -/
theorem stepMetadata_key_workspace_members (st : MetadataSlots) (v : Json) (st₂ : MetadataSlots)
    (h : stepMetadata st "workspace_members" v = .ok st₂) :
    ({ st₂ with workspace_members := none } : MetadataSlots) =
      { st with workspace_members := none } := by
  obtain ⟨sp, swm, sres, sver⟩ := st
  simp only [stepMetadata, String.reduceEq, reduceIte] at h
  first
    | (injection h with h2; subst h2; rfl)
    | (split at h <;>
        first
          | contradiction
          | (injection h with h2; subst h2; rfl)
          | (split at h <;>
              first
                | contradiction
                | (injection h with h2; subst h2; rfl)))

/-- `stepMetadata` on a key other than `resolve` commutes with clearing the
`resolve` slot. -/
theorem stepMetadata_clear_resolve (st : MetadataSlots) (k : String) (v : Json)
    (st₂ : MetadataSlots) (hk : k ≠ "resolve") (h : stepMetadata st k v = .ok st₂) :
    stepMetadata { st with resolve := none } k v = .ok { st₂ with resolve := none } := by
  obtain ⟨sp, swm, sres, sver⟩ := st
  show stepMetadata ⟨sp, swm, none, sver⟩ k v = Except.ok { st₂ with resolve := none }
  simp only [stepMetadata] at h ⊢
  split_ifs at h ⊢ <;>
    first
      | contradiction
      | (injection h with h2; subst h2; rfl)
      | (split at h <;>
          first
            | contradiction
            | (injection h with h2; subst h2; rfl)
            | (split at h <;>
                first
                  | contradiction
                  | (injection h with h2; subst h2; rfl)))

/-- A `stepMetadata` on `resolve` itself changes only that slot. -/
theorem stepMetadata_key_resolve (st : MetadataSlots) (v : Json) (st₂ : MetadataSlots)
    (h : stepMetadata st "resolve" v = .ok st₂) :
    ({ st₂ with resolve := none } : MetadataSlots) = { st with resolve := none } := by
  obtain ⟨sp, swm, sres, sver⟩ := st
  simp only [stepMetadata, String.reduceEq, reduceIte] at h
  first
    | (injection h with h2; subst h2; rfl)
    | (split at h <;>
        first
          | contradiction
          | (injection h with h2; subst h2; rfl)
          | (split at h <;>
              first
                | contradiction
                | (injection h with h2; subst h2; rfl)))

section
set_option maxHeartbeats 2000000

/-- `stepPackage` on a key other than `name` commutes with clearing the
`name` slot. -/
theorem stepPackage_clear_name (st : PackageSlots) (k : String) (v : Json)
    (st₂ : PackageSlots) (hk : k ≠ "name") (h : stepPackage st k v = .ok st₂) :
    stepPackage { st with name := none } k v = .ok { st₂ with name := none } := by
  obtain ⟨sn, sv, si, ssrc, sdeps, stgts, sfeat, smp⟩ := st
  show stepPackage ⟨none, sv, si, ssrc, sdeps, stgts, sfeat, smp⟩ k v =
    Except.ok { st₂ with name := none }
  simp only [stepPackage] at h ⊢
  split_ifs at h ⊢ <;>
    first
      | contradiction
      | (injection h with h2; subst h2; rfl)
      | (split at h <;>
          first
            | contradiction
            | (injection h with h2; subst h2; rfl)
            | (split at h <;>
                first
                  | contradiction
                  | (injection h with h2; subst h2; rfl)))

/-- A `stepPackage` on `name` itself changes only that slot. -/
theorem stepPackage_key_name (st : PackageSlots) (v : Json) (st₂ : PackageSlots)
    (h : stepPackage st "name" v = .ok st₂) :
    ({ st₂ with name := none } : PackageSlots) = { st with name := none } := by
  obtain ⟨sn, sv, si, ssrc, sdeps, stgts, sfeat, smp⟩ := st
  simp only [stepPackage, String.reduceEq, reduceIte] at h
  first
    | (injection h with h2; subst h2; rfl)
    | (split at h <;>
        first
          | contradiction
          | (injection h with h2; subst h2; rfl)
          | (split at h <;>
              first
                | contradiction
                | (injection h with h2; subst h2; rfl)))

/-- `stepPackage` on a key other than `id` commutes with clearing the `id`
slot. -/
theorem stepPackage_clear_id (st : PackageSlots) (k : String) (v : Json)
    (st₂ : PackageSlots) (hk : k ≠ "id") (h : stepPackage st k v = .ok st₂) :
    stepPackage { st with id := none } k v = .ok { st₂ with id := none } := by
  obtain ⟨sn, sv, si, ssrc, sdeps, stgts, sfeat, smp⟩ := st
  show stepPackage ⟨sn, sv, none, ssrc, sdeps, stgts, sfeat, smp⟩ k v =
    Except.ok { st₂ with id := none }
  simp only [stepPackage] at h ⊢
  split_ifs at h ⊢ <;>
    first
      | contradiction
      | (injection h with h2; subst h2; rfl)
      | (split at h <;>
          first
            | contradiction
            | (injection h with h2; subst h2; rfl)
            | (split at h <;>
                first
                  | contradiction
                  | (injection h with h2; subst h2; rfl)))

/-- A `stepPackage` on `id` itself changes only that slot. -/
theorem stepPackage_key_id (st : PackageSlots) (v : Json) (st₂ : PackageSlots)
    (h : stepPackage st "id" v = .ok st₂) :
    ({ st₂ with id := none } : PackageSlots) = { st with id := none } := by
  obtain ⟨sn, sv, si, ssrc, sdeps, stgts, sfeat, smp⟩ := st
  simp only [stepPackage, String.reduceEq, reduceIte] at h
  first
    | (injection h with h2; subst h2; rfl)
    | (split at h <;>
        first
          | contradiction
          | (injection h with h2; subst h2; rfl)
          | (split at h <;>
              first
                | contradiction
                | (injection h with h2; subst h2; rfl)))

/-- `stepPackage` on a key other than `manifest_path` commutes with
clearing the `manifest_path` slot. -/
theorem stepPackage_clear_manifest_path (st : PackageSlots) (k : String) (v : Json)
    (st₂ : PackageSlots) (hk : k ≠ "manifest_path") (h : stepPackage st k v = .ok st₂) :
    stepPackage { st with manifest_path := none } k v =
      .ok { st₂ with manifest_path := none } := by
  obtain ⟨sn, sv, si, ssrc, sdeps, stgts, sfeat, smp⟩ := st
  show stepPackage ⟨sn, sv, si, ssrc, sdeps, stgts, sfeat, none⟩ k v =
    Except.ok { st₂ with manifest_path := none }
  simp only [stepPackage] at h ⊢
  split_ifs at h ⊢ <;>
    first
      | contradiction
      | (injection h with h2; subst h2; rfl)
      | (split at h <;>
          first
            | contradiction
            | (injection h with h2; subst h2; rfl)
            | (split at h <;>
                first
                  | contradiction
                  | (injection h with h2; subst h2; rfl)))

/-- A `stepPackage` on `manifest_path` itself changes only that slot. -/
theorem stepPackage_key_manifest_path (st : PackageSlots) (v : Json) (st₂ : PackageSlots)
    (h : stepPackage st "manifest_path" v = .ok st₂) :
    ({ st₂ with manifest_path := none } : PackageSlots) =
      { st with manifest_path := none } := by
  obtain ⟨sn, sv, si, ssrc, sdeps, stgts, sfeat, smp⟩ := st
  simp only [stepPackage, String.reduceEq, reduceIte] at h
  first
    | (injection h with h2; subst h2; rfl)
    | (split at h <;>
        first
          | contradiction
          | (injection h with h2; subst h2; rfl)
          | (split at h <;>
              first
                | contradiction
                | (injection h with h2; subst h2; rfl)))

end

/-- Removing every `crate_types` member from a target object that decodes
successfully still decodes, with `crate_types` at its empty default. -/
theorem decodeTarget_erase_crate_types (ms : List (String × Json)) (t : Target)
    (h : decodeTarget (.obj ms) = .ok t) :
    decodeTarget (.obj (eraseField "crate_types" ms)) = .ok { t with crate_types := [] } := by
  simp only [decodeTarget] at h ⊢
  cases hf : foldFields stepTarget ⟨none, none, none, none⟩ ms with
  | error e =>
    rw [hf] at h
    exact absurd h (by simp)
  | ok st =>
    rw [hf] at h
    have hf2 := foldFields_erase stepTarget "crate_types"
      (fun s => { s with crate_types := none })
      stepTarget_clear_crate_types stepTarget_key_crate_types
      ms ⟨none, none, none, none⟩ st hf
    dsimp only at hf2
    rw [hf2]
    all_goals obtain ⟨sn, sk, sct, ssp⟩ := st
    all_goals try dsimp only at h ⊢
    all_goals repeat' split at h
    all_goals
      first
        | contradiction
        | (injection h with h2; subst h2; rfl)

/-- Removing every `kind` member from a target object that decodes
successfully makes decoding fail with a missing-field error. -/
theorem decodeTarget_erase_kind (ms : List (String × Json)) (t : Target)
    (h : decodeTarget (.obj ms) = .ok t) :
    decodeTarget (.obj (eraseField "kind" ms)) = .error "missing field kind" := by
  simp only [decodeTarget] at h ⊢
  cases hf : foldFields stepTarget ⟨none, none, none, none⟩ ms with
  | error e =>
    rw [hf] at h
    exact absurd h (by simp)
  | ok st =>
    rw [hf] at h
    have hf2 := foldFields_erase stepTarget "kind"
      (fun s => { s with kind := none })
      stepTarget_clear_kind stepTarget_key_kind
      ms ⟨none, none, none, none⟩ st hf
    dsimp only at hf2
    rw [hf2]
    all_goals obtain ⟨sn, sk, sct, ssp⟩ := st
    all_goals try dsimp only at h ⊢
    all_goals repeat' split at h
    all_goals
      first
        | contradiction
        | (injection h with h2; subst h2; rfl)

/-- Removing every `src_path` member from a target object that decodes
successfully makes decoding fail with a missing-field error. -/
theorem decodeTarget_erase_src_path (ms : List (String × Json)) (t : Target)
    (h : decodeTarget (.obj ms) = .ok t) :
    decodeTarget (.obj (eraseField "src_path" ms)) = .error "missing field src_path" := by
  simp only [decodeTarget] at h ⊢
  cases hf : foldFields stepTarget ⟨none, none, none, none⟩ ms with
  | error e =>
    rw [hf] at h
    exact absurd h (by simp)
  | ok st =>
    rw [hf] at h
    have hf2 := foldFields_erase stepTarget "src_path"
      (fun s => { s with src_path := none })
      stepTarget_clear_src_path stepTarget_key_src_path
      ms ⟨none, none, none, none⟩ st hf
    dsimp only at hf2
    rw [hf2]
    all_goals obtain ⟨sn, sk, sct, ssp⟩ := st
    all_goals try dsimp only at h ⊢
    all_goals repeat' split at h
    all_goals
      first
        | contradiction
        | (injection h with h2; subst h2; rfl)

/-- Removing every `workspace_members` member from a root object that
decodes successfully still decodes, with `workspace_members` at its empty
default. -/
theorem decodeMetadata_erase_workspace_members (ms : List (String × Json)) (g : Metadata)
    (h : decodeMetadata (.obj ms) = .ok g) :
    decodeMetadata (.obj (eraseField "workspace_members" ms)) =
      .ok { g with workspace_members := [] } := by
  simp only [decodeMetadata] at h ⊢
  cases hf : foldFields stepMetadata ⟨none, none, none, none⟩ ms with
  | error e =>
    rw [hf] at h
    exact absurd h (by simp)
  | ok st =>
    rw [hf] at h
    have hf2 := foldFields_erase stepMetadata "workspace_members"
      (fun s => { s with workspace_members := none })
      stepMetadata_clear_workspace_members stepMetadata_key_workspace_members
      ms ⟨none, none, none, none⟩ st hf
    dsimp only at hf2
    rw [hf2]
    all_goals obtain ⟨sp, swm, sres, sver⟩ := st
    all_goals try dsimp only at h ⊢
    all_goals repeat' split at h
    all_goals
      first
        | contradiction
        | (injection h with h2; subst h2; rfl)

/-- Removing every `name` member from a package object that decodes
successfully makes decoding fail with a missing-field error. -/
theorem decodePackage_erase_name (ms : List (String × Json)) (p : Package)
    (h : decodePackage (.obj ms) = .ok p) :
    decodePackage (.obj (eraseField "name" ms)) = .error "missing field name" := by
  simp only [decodePackage] at h ⊢
  cases hf : foldFields stepPackage ⟨none, none, none, none, none, none, none, none⟩ ms with
  | error e =>
    rw [hf] at h
    exact absurd h (by simp)
  | ok st =>
    rw [hf] at h
    have hf2 := foldFields_erase stepPackage "name"
      (fun s => { s with name := none })
      stepPackage_clear_name stepPackage_key_name
      ms ⟨none, none, none, none, none, none, none, none⟩ st hf
    dsimp only at hf2
    rw [hf2]
    all_goals obtain ⟨sn, sv, si, ssrc, sdeps, stgts, sfeat, smp⟩ := st
    all_goals try dsimp only at h ⊢
    all_goals repeat' split at h
    all_goals
      first
        | contradiction
        | (injection h with h2; subst h2; rfl)

/-- Removing every `id` member from a package object that decodes
successfully makes decoding fail with a missing-field error. -/
theorem decodePackage_erase_id (ms : List (String × Json)) (p : Package)
    (h : decodePackage (.obj ms) = .ok p) :
    decodePackage (.obj (eraseField "id" ms)) = .error "missing field id" := by
  simp only [decodePackage] at h ⊢
  cases hf : foldFields stepPackage ⟨none, none, none, none, none, none, none, none⟩ ms with
  | error e =>
    rw [hf] at h
    exact absurd h (by simp)
  | ok st =>
    rw [hf] at h
    have hf2 := foldFields_erase stepPackage "id"
      (fun s => { s with id := none })
      stepPackage_clear_id stepPackage_key_id
      ms ⟨none, none, none, none, none, none, none, none⟩ st hf
    dsimp only at hf2
    rw [hf2]
    all_goals obtain ⟨sn, sv, si, ssrc, sdeps, stgts, sfeat, smp⟩ := st
    all_goals try dsimp only at h ⊢
    all_goals repeat' split at h
    all_goals
      first
        | contradiction
        | (injection h with h2; subst h2; rfl)

/-- Removing every `manifest_path` member from a package object that
decodes successfully makes decoding fail with a missing-field error. -/
theorem decodePackage_erase_manifest_path (ms : List (String × Json)) (p : Package)
    (h : decodePackage (.obj ms) = .ok p) :
    decodePackage (.obj (eraseField "manifest_path" ms)) =
      .error "missing field manifest_path" := by
  simp only [decodePackage] at h ⊢
  cases hf : foldFields stepPackage ⟨none, none, none, none, none, none, none, none⟩ ms with
  | error e =>
    rw [hf] at h
    exact absurd h (by simp)
  | ok st =>
    rw [hf] at h
    have hf2 := foldFields_erase stepPackage "manifest_path"
      (fun s => { s with manifest_path := none })
      stepPackage_clear_manifest_path stepPackage_key_manifest_path
      ms ⟨none, none, none, none, none, none, none, none⟩ st hf
    dsimp only at hf2
    rw [hf2]
    all_goals obtain ⟨sn, sv, si, ssrc, sdeps, stgts, sfeat, smp⟩ := st
    all_goals try dsimp only at h ⊢
    all_goals repeat' split at h
    all_goals
      first
        | contradiction
        | (injection h with h2; subst h2; rfl)

/-- C5: for any object document that otherwise decodes, an absent
`crate_types` member (of a target) or `workspace_members` member (of the
root) decodes to its empty default, while an absent required field — a
package's `name`, `id` or `manifest_path`, a target's `kind` or `src_path`
— makes decoding fail with a decode error. -/
theorem defaulted_and_required_fields :
    (∀ ms t, decodeTarget (.obj ms) = .ok t →
      decodeTarget (.obj (eraseField "crate_types" ms)) = .ok { t with crate_types := [] }) ∧
    (∀ ms g, decodeMetadata (.obj ms) = .ok g →
      decodeMetadata (.obj (eraseField "workspace_members" ms)) =
        .ok { g with workspace_members := [] }) ∧
    (∀ ms t, decodeTarget (.obj ms) = .ok t →
      decodeTarget (.obj (eraseField "kind" ms)) = .error "missing field kind") ∧
    (∀ ms t, decodeTarget (.obj ms) = .ok t →
      decodeTarget (.obj (eraseField "src_path" ms)) = .error "missing field src_path") ∧
    (∀ ms p, decodePackage (.obj ms) = .ok p →
      decodePackage (.obj (eraseField "name" ms)) = .error "missing field name") ∧
    (∀ ms p, decodePackage (.obj ms) = .ok p →
      decodePackage (.obj (eraseField "id" ms)) = .error "missing field id") ∧
    (∀ ms p, decodePackage (.obj ms) = .ok p →
      decodePackage (.obj (eraseField "manifest_path" ms)) =
        .error "missing field manifest_path") :=
  ⟨decodeTarget_erase_crate_types, decodeMetadata_erase_workspace_members,
    decodeTarget_erase_kind, decodeTarget_erase_src_path,
    decodePackage_erase_name, decodePackage_erase_id, decodePackage_erase_manifest_path⟩

/-- C5 witness: the default and the missing-field behaviour at concrete
target, root and package documents. -/
theorem defaulted_and_required_fields_witness :
    decodeTarget (.obj (eraseField "crate_types" tgtMs)) = .ok ⟨"t", ["lib"], [], "s.rs"⟩ ∧
    decodeMetadata (.obj (eraseField "workspace_members" rootMs)) =
      .ok ⟨[], [], some ⟨[]⟩, 1⟩ ∧
    decodeTarget (.obj (eraseField "kind" tgtMs)) = .error "missing field kind" ∧
    decodeTarget (.obj (eraseField "src_path" tgtMs)) = .error "missing field src_path" ∧
    decodePackage (.obj (eraseField "name" (pkgMs "a"))) = .error "missing field name" ∧
    decodePackage (.obj (eraseField "id" (pkgMs "a"))) = .error "missing field id" ∧
    decodePackage (.obj (eraseField "manifest_path" (pkgMs "a"))) =
      .error "missing field manifest_path" :=
  ⟨defaulted_and_required_fields.1 tgtMs ⟨"t", ["lib"], ["lib"], "s.rs"⟩ rfl,
    defaulted_and_required_fields.2.1 rootMs ⟨[], ["w"], some ⟨[]⟩, 1⟩ rfl,
    defaulted_and_required_fields.2.2.1 tgtMs ⟨"t", ["lib"], ["lib"], "s.rs"⟩ rfl,
    defaulted_and_required_fields.2.2.2.1 tgtMs ⟨"t", ["lib"], ["lib"], "s.rs"⟩ rfl,
    defaulted_and_required_fields.2.2.2.2.1 (pkgMs "a") (pkgVal "a") rfl,
    defaulted_and_required_fields.2.2.2.2.2.1 (pkgMs "a") (pkgVal "a") rfl,
    defaulted_and_required_fields.2.2.2.2.2.2 (pkgMs "a") (pkgVal "a") rfl⟩

/-- C10: a root document that decodes successfully still decodes when its
`resolve` member is removed entirely, and the resulting graph has
`resolve = none`; absence of `resolve` is tolerated although it has no
listed default. -/
theorem absent_resolve_defaults_to_none (ms : List (String × Json)) (g : Metadata)
    (h : decodeMetadata (.obj ms) = .ok g) :
    decodeMetadata (.obj (eraseField "resolve" ms)) = .ok { g with resolve := none } := by
  simp only [decodeMetadata] at h ⊢
  cases hf : foldFields stepMetadata ⟨none, none, none, none⟩ ms with
  | error e =>
    rw [hf] at h
    exact absurd h (by simp)
  | ok st =>
    rw [hf] at h
    have hf2 := foldFields_erase stepMetadata "resolve"
      (fun s => { s with resolve := none })
      stepMetadata_clear_resolve stepMetadata_key_resolve
      ms ⟨none, none, none, none⟩ st hf
    dsimp only at hf2
    rw [hf2]
    all_goals obtain ⟨sp, swm, sres, sver⟩ := st
    all_goals try dsimp only at h ⊢
    all_goals repeat' split at h
    all_goals
      first
        | contradiction
        | (injection h with h2; subst h2; rfl)

/-- C10 witness: removing the (non-null) `resolve` member of a concrete
root document yields a graph with `resolve = none`. -/
theorem absent_resolve_witness :
    decodeMetadata (.obj (eraseField "resolve" rootMs)) = .ok ⟨[], ["w"], none, 1⟩ :=
  absent_resolve_defaults_to_none rootMs ⟨[], ["w"], some ⟨[]⟩, 1⟩ rfl

/-- C8 witness: a concrete invocation whose process exits successfully with
the single invalid byte `0xFF` on stdout yields the `utf8` error. -/
theorem invalid_utf8_witness :
    metadata_deps none false none (fun _ _ => .ok ⟨true, [0xFF], []⟩) = .error .utf8 :=
  invalid_utf8_reports_encoding_error none false none (fun _ _ => .ok ⟨true, [0xFF], []⟩)
    ⟨true, [0xFF], []⟩ rfl rfl rfl

/-! ### Helper lemmas for the unknown-member preservation proof -/

/-- `decodeOptWith` on a non-null value decodes the value itself. -/
theorem decodeOptWith_ne_null (dec : Json → Except String α) (j : Json) (hj : j ≠ .null) :
    decodeOptWith dec j =
      match dec j with
      | .error e => .error e
      | .ok v => .ok (some v) := by
  cases j <;> first | exact absurd rfl hj | rfl

/-- Two member lists with equal head steps and equal tail folds fold
equally. -/
theorem foldFields_cons_eq (step : σ → String → Json → Except String σ) (k : String)
    (v v' : Json) (ms ms' : List (String × Json))
    (hstep : ∀ st, step st k v' = step st k v)
    (htail : ∀ st, foldFields step st ms' = foldFields step st ms) :
    ∀ st, foldFields step st ((k, v') :: ms') = foldFields step st ((k, v) :: ms) := by
  intro st
  simp only [foldFields, hstep st]
  cases step st k v with
  | error e => rfl
  | ok st₂ => exact htail st₂

/-- A key outside `targetFields` is ignored by `stepTarget`. -/
theorem stepTarget_unknown (st : TargetSlots) (k : String) (v : Json)
    (hlk : lookupField k targetFields = none) : stepTarget st k v = .ok st := by
  have h1 : ¬ k = "name" := by rintro rfl; simp [targetFields, lookupField] at hlk
  have h2 : ¬ k = "kind" := by rintro rfl; simp [targetFields, lookupField] at hlk
  have h3 : ¬ k = "crate_types" := by rintro rfl; simp [targetFields, lookupField] at hlk
  have h4 : ¬ k = "src_path" := by rintro rfl; simp [targetFields, lookupField] at hlk
  obtain ⟨sn, sk, sct, ssp⟩ := st
  simp [stepTarget, h1, h2, h3, h4]

/-- A key outside `packageFields` is ignored by `stepPackage`. -/
theorem stepPackage_unknown (st : PackageSlots) (k : String) (v : Json)
    (hlk : lookupField k packageFields = none) : stepPackage st k v = .ok st := by
  have h1 : ¬ k = "name" := by rintro rfl; simp [packageFields, lookupField] at hlk
  have h2 : ¬ k = "version" := by rintro rfl; simp [packageFields, lookupField] at hlk
  have h3 : ¬ k = "id" := by rintro rfl; simp [packageFields, lookupField] at hlk
  have h4 : ¬ k = "source" := by rintro rfl; simp [packageFields, lookupField] at hlk
  have h5 : ¬ k = "dependencies" := by rintro rfl; simp [packageFields, lookupField] at hlk
  have h6 : ¬ k = "targets" := by rintro rfl; simp [packageFields, lookupField] at hlk
  have h7 : ¬ k = "features" := by rintro rfl; simp [packageFields, lookupField] at hlk
  have h8 : ¬ k = "manifest_path" := by rintro rfl; simp [packageFields, lookupField] at hlk
  obtain ⟨sn, sv, si, ssrc, sdeps, stgts, sfeat, smp⟩ := st
  simp [stepPackage, h1, h2, h3, h4, h5, h6, h7, h8]

/-- A key outside `nodeFields` is ignored by `stepNode`. -/
theorem stepNode_unknown (st : NodeSlots) (k : String) (v : Json)
    (hlk : lookupField k nodeFields = none) : stepNode st k v = .ok st := by
  have h1 : ¬ k = "id" := by rintro rfl; simp [nodeFields, lookupField] at hlk
  have h2 : ¬ k = "dependencies" := by rintro rfl; simp [nodeFields, lookupField] at hlk
  obtain ⟨si, sd⟩ := st
  simp [stepNode, h1, h2]

/-- A key outside `resolveFields` is ignored by `stepResolve`. -/
theorem stepResolve_unknown (st : ResolveSlots) (k : String) (v : Json)
    (hlk : lookupField k resolveFields = none) : stepResolve st k v = .ok st := by
  have h1 : ¬ k = "nodes" := by rintro rfl; simp [resolveFields, lookupField] at hlk
  obtain ⟨snodes⟩ := st
  simp [stepResolve, h1]

/-- A key outside `metadataFields` is ignored by `stepMetadata`. -/
theorem stepMetadata_unknown (st : MetadataSlots) (k : String) (v : Json)
    (hlk : lookupField k metadataFields = none) : stepMetadata st k v = .ok st := by
  have h1 : ¬ k = "packages" := by rintro rfl; simp [metadataFields, lookupField] at hlk
  have h2 : ¬ k = "workspace_members" := by
    rintro rfl; simp [metadataFields, lookupField] at hlk
  have h3 : ¬ k = "resolve" := by rintro rfl; simp [metadataFields, lookupField] at hlk
  have h4 : ¬ k = "version" := by rintro rfl; simp [metadataFields, lookupField] at hlk
  obtain ⟨sp, swm, sres, sver⟩ := st
  simp [stepMetadata, h1, h2, h3, h4]

/-- A key outside `dependencyFields` is ignored by `stepDependency`. -/
theorem stepDependency_unknown (st : DependencySlots) (k : String) (v : Json)
    (hlk : lookupField k dependencyFields = none) : stepDependency st k v = .ok st := by
  have h1 : ¬ k = "name" := by rintro rfl; simp [dependencyFields, lookupField] at hlk
  have h2 : ¬ k = "req" := by rintro rfl; simp [dependencyFields, lookupField] at hlk
  have h3 : ¬ k = "kind" := by rintro rfl; simp [dependencyFields, lookupField] at hlk
  obtain ⟨sn, sr, skd⟩ := st
  simp [stepDependency, h1, h2, h3]

/-- A recognized key's step yields equal results on decoder-equal values
(`Target`). -/
theorem stepTarget_val_eq (k : String) (t : Ty) (hlk : lookupField k targetFields = some t)
    (v v' : Json) (hv : TyDecEq t v v') (st : TargetSlots) :
    stepTarget st k v' = stepTarget st k v := by
  obtain ⟨sn, sk, sct, ssp⟩ := st
  simp only [targetFields, lookupField] at hlk
  split_ifs at hlk with e1 e2 e3 e4
  · injection hlk with hty
    subst hty
    subst e1
    have hv' : decodeString v' = decodeString v := hv
    simp only [stepTarget, String.reduceEq, reduceIte]
    split
    · rfl
    · rw [hv']
  · injection hlk with hty
    subst hty
    subst e2
    have hv' : decodeStringListJ v' = decodeStringListJ v := hv
    simp only [stepTarget, String.reduceEq, reduceIte]
    split
    · rfl
    · rw [hv']
  · injection hlk with hty
    subst hty
    subst e3
    have hv' : decodeStringListJ v' = decodeStringListJ v := hv
    simp only [stepTarget, String.reduceEq, reduceIte]
    split
    · rfl
    · rw [hv']
  · injection hlk with hty
    subst hty
    subst e4
    have hv' : decodeString v' = decodeString v := hv
    simp only [stepTarget, String.reduceEq, reduceIte]
    split
    · rfl
    · rw [hv']

/-- A recognized key's step yields equal results on decoder-equal values
(`Package`). -/
theorem stepPackage_val_eq (k : String) (t : Ty) (hlk : lookupField k packageFields = some t)
    (v v' : Json) (hv : TyDecEq t v v') (st : PackageSlots) :
    stepPackage st k v' = stepPackage st k v := by
  obtain ⟨sn, sv, si, ssrc, sdeps, stgts, sfeat, smp⟩ := st
  simp only [packageFields, lookupField] at hlk
  split_ifs at hlk with e1 e2 e3 e4 e5 e6 e7 e8
  · injection hlk with hty
    subst hty
    subst e1
    have hv' : decodeString v' = decodeString v := hv
    simp only [stepPackage, String.reduceEq, reduceIte]
    split
    · rfl
    · rw [hv']
  · injection hlk with hty
    subst hty
    subst e2
    have hv' : decodeString v' = decodeString v := hv
    simp only [stepPackage, String.reduceEq, reduceIte]
    split
    · rfl
    · rw [hv']
  · injection hlk with hty
    subst hty
    subst e3
    have hv' : decodeString v' = decodeString v := hv
    simp only [stepPackage, String.reduceEq, reduceIte]
    split
    · rfl
    · rw [hv']
  · injection hlk with hty
    subst hty
    subst e4
    have hv' : decodeOptStringJ v' = decodeOptStringJ v := hv
    simp only [stepPackage, String.reduceEq, reduceIte]
    split
    · rfl
    · rw [hv']
  · injection hlk with hty
    subst hty
    subst e5
    have hv' : decodeDependencyListJ v' = decodeDependencyListJ v := hv
    simp only [stepPackage, String.reduceEq, reduceIte]
    split
    · rfl
    · rw [hv']
  · injection hlk with hty
    subst hty
    subst e6
    have hv' : decodeTargetListJ v' = decodeTargetListJ v := hv
    simp only [stepPackage, String.reduceEq, reduceIte]
    split
    · rfl
    · rw [hv']
  · injection hlk with hty
    subst hty
    subst e7
    have hv' : decodeFeatures v' = decodeFeatures v := hv
    simp only [stepPackage, String.reduceEq, reduceIte]
    split
    · rfl
    · rw [hv']
  · injection hlk with hty
    subst hty
    subst e8
    have hv' : decodeString v' = decodeString v := hv
    simp only [stepPackage, String.reduceEq, reduceIte]
    split
    · rfl
    · rw [hv']

/-- A recognized key's step yields equal results on decoder-equal values
(`Node`). -/
theorem stepNode_val_eq (k : String) (t : Ty) (hlk : lookupField k nodeFields = some t)
    (v v' : Json) (hv : TyDecEq t v v') (st : NodeSlots) :
    stepNode st k v' = stepNode st k v := by
  obtain ⟨si, sd⟩ := st
  simp only [nodeFields, lookupField] at hlk
  split_ifs at hlk with e1 e2
  · injection hlk with hty
    subst hty
    subst e1
    have hv' : decodeString v' = decodeString v := hv
    simp only [stepNode, String.reduceEq, reduceIte]
    split
    · rfl
    · rw [hv']
  · injection hlk with hty
    subst hty
    subst e2
    have hv' : decodeStringListJ v' = decodeStringListJ v := hv
    simp only [stepNode, String.reduceEq, reduceIte]
    split
    · rfl
    · rw [hv']

/-- A recognized key's step yields equal results on decoder-equal values
(`Resolve`). -/
theorem stepResolve_val_eq (k : String) (t : Ty) (hlk : lookupField k resolveFields = some t)
    (v v' : Json) (hv : TyDecEq t v v') (st : ResolveSlots) :
    stepResolve st k v' = stepResolve st k v := by
  obtain ⟨snodes⟩ := st
  simp only [resolveFields, lookupField] at hlk
  split_ifs at hlk with e1
  injection hlk with hty
  subst hty
  subst e1
  have hv' : decodeNodeListJ v' = decodeNodeListJ v := hv
  simp only [stepResolve, String.reduceEq, reduceIte]
  split
  · rfl
  · rw [hv']

/-- A recognized key's step yields equal results on decoder-equal values
(`Metadata`). -/
theorem stepMetadata_val_eq (k : String) (t : Ty)
    (hlk : lookupField k metadataFields = some t)
    (v v' : Json) (hv : TyDecEq t v v') (st : MetadataSlots) :
    stepMetadata st k v' = stepMetadata st k v := by
  obtain ⟨sp, swm, sres, sver⟩ := st
  simp only [metadataFields, lookupField] at hlk
  split_ifs at hlk with e1 e2 e3 e4
  · injection hlk with hty
    subst hty
    subst e1
    have hv' : decodePackageListJ v' = decodePackageListJ v := hv
    simp only [stepMetadata, String.reduceEq, reduceIte]
    split
    · rfl
    · rw [hv']
  · injection hlk with hty
    subst hty
    subst e2
    have hv' : decodeStringListJ v' = decodeStringListJ v := hv
    simp only [stepMetadata, String.reduceEq, reduceIte]
    split
    · rfl
    · rw [hv']
  · injection hlk with hty
    subst hty
    subst e3
    have hv' : decodeOptResolveJ v' = decodeOptResolveJ v := hv
    simp only [stepMetadata, String.reduceEq, reduceIte]
    split
    · rfl
    · rw [hv']
  · injection hlk with hty
    subst hty
    subst e4
    have hv' : decodeNat v' = decodeNat v := hv
    simp only [stepMetadata, String.reduceEq, reduceIte]
    split
    · rfl
    · rw [hv']

/-- A recognized key's step yields equal results on decoder-equal values
(`Dependency`). -/
theorem stepDependency_val_eq (k : String) (t : Ty)
    (hlk : lookupField k dependencyFields = some t)
    (v v' : Json) (hv : TyDecEq t v v') (st : DependencySlots) :
    stepDependency st k v' = stepDependency st k v := by
  obtain ⟨sn, sr, skd⟩ := st
  simp only [dependencyFields, lookupField] at hlk
  split_ifs at hlk with e1 e2 e3
  · injection hlk with hty
    subst hty
    subst e1
    have hv' : decodeString v' = decodeString v := hv
    simp only [stepDependency, String.reduceEq, reduceIte]
    split
    · rfl
    · rw [hv']
  · injection hlk with hty
    subst hty
    subst e2
    have hv' : decodeString v' = decodeString v := hv
    simp only [stepDependency, String.reduceEq, reduceIte]
    split
    · rfl
    · rw [hv']
  · injection hlk with hty
    subst hty
    subst e3
    have hv' : decodeKindVal v' = decodeKindVal v := hv
    simp only [stepDependency, String.reduceEq, reduceIte]
    split
    · rfl
    · rw [hv']

/-- Preservation: along any `Ext` extension, every decoder of the schema
returns the same result on the extended document as on the original. -/
theorem ext_decode_eq (s : Sch) (j j' : Json) (hext : Ext s j j') : DecEq s j j' := by
  induction hext with
  | refl s j =>
    cases s with
    | ty t =>
      cases t with
      | list t2 => cases t2 <;> first | rfl | trivial
      | opt t2 => cases t2 <;> first | rfl | trivial
      | _ => rfl
    | listElems t => cases t <;> cases j <;> first | rfl | trivial
    | members fs =>
      cases j with
      | obj ms => exact ⟨fun _ st => rfl, fun _ st => rfl, fun _ st => rfl,
          fun _ st => rfl, fun _ st => rfl, fun _ st => rfl⟩
      | _ => trivial
  | arr t xs ys hE ih =>
    cases t with
    | str =>
      show decodeStringListJ (.arr ys) = decodeStringListJ (.arr xs)
      simp only [decodeStringListJ]
      exact ih
    | package =>
      show decodePackageListJ (.arr ys) = decodePackageListJ (.arr xs)
      simp only [decodePackageListJ]
      exact ih
    | target =>
      show decodeTargetListJ (.arr ys) = decodeTargetListJ (.arr xs)
      simp only [decodeTargetListJ]
      exact ih
    | node =>
      show decodeNodeListJ (.arr ys) = decodeNodeListJ (.arr xs)
      simp only [decodeNodeListJ]
      exact ih
    | dependency =>
      show decodeDependencyListJ (.arr ys) = decodeDependencyListJ (.arr xs)
      simp only [decodeDependencyListJ]
      exact ih
    | _ => trivial
  | elemsNil t => cases t <;> first | rfl | trivial
  | elemsCons t x y xs ys hxy hlist ihx ihl =>
    cases t with
    | str =>
      have h1 : decodeString y = decodeString x := ihx
      have h2 : decodeListWith decodeString ys = decodeListWith decodeString xs := ihl
      show decodeListWith decodeString (y :: ys) = decodeListWith decodeString (x :: xs)
      simp only [decodeListWith, h1, h2]
    | package =>
      have h1 : decodePackage y = decodePackage x := ihx
      have h2 : decodeListWith decodePackage ys = decodeListWith decodePackage xs := ihl
      show decodeListWith decodePackage (y :: ys) = decodeListWith decodePackage (x :: xs)
      simp only [decodeListWith, h1, h2]
    | target =>
      have h1 : decodeTarget y = decodeTarget x := ihx
      have h2 : decodeListWith decodeTarget ys = decodeListWith decodeTarget xs := ihl
      show decodeListWith decodeTarget (y :: ys) = decodeListWith decodeTarget (x :: xs)
      simp only [decodeListWith, h1, h2]
    | node =>
      have h1 : decodeNode y = decodeNode x := ihx
      have h2 : decodeListWith decodeNode ys = decodeListWith decodeNode xs := ihl
      show decodeListWith decodeNode (y :: ys) = decodeListWith decodeNode (x :: xs)
      simp only [decodeListWith, h1, h2]
    | dependency =>
      have h1 : decodeDependency y = decodeDependency x := ihx
      have h2 : decodeListWith decodeDependency ys = decodeListWith decodeDependency xs := ihl
      show decodeListWith decodeDependency (y :: ys) = decodeListWith decodeDependency (x :: xs)
      simp only [decodeListWith, h1, h2]
    | _ => trivial
  | someVal t j j' hj hj' hE ih =>
    cases t with
    | str =>
      have h1 : decodeString j' = decodeString j := ih
      show decodeOptStringJ j' = decodeOptStringJ j
      simp only [decodeOptStringJ]
      rw [decodeOptWith_ne_null _ _ hj', decodeOptWith_ne_null _ _ hj, h1]
    | resolve =>
      have h1 : decodeResolve j' = decodeResolve j := ih
      show decodeOptResolveJ j' = decodeOptResolveJ j
      simp only [decodeOptResolveJ]
      rw [decodeOptWith_ne_null _ _ hj', decodeOptWith_ne_null _ _ hj, h1]
    | _ => trivial
  | struct t fs ms ms' hfs hmems ihm =>
    cases t with
    | metadata =>
      simp only [Ty.fields] at hfs
      injection hfs with hfs2
      subst hfs2
      obtain ⟨c1, c2, c3, c4, c5, c6⟩ := ihm
      show decodeMetadata (.obj ms') = decodeMetadata (.obj ms)
      simp only [decodeMetadata, c5 rfl]
    | package =>
      simp only [Ty.fields] at hfs
      injection hfs with hfs2
      subst hfs2
      obtain ⟨c1, c2, c3, c4, c5, c6⟩ := ihm
      show decodePackage (.obj ms') = decodePackage (.obj ms)
      simp only [decodePackage, c2 rfl]
    | target =>
      simp only [Ty.fields] at hfs
      injection hfs with hfs2
      subst hfs2
      obtain ⟨c1, c2, c3, c4, c5, c6⟩ := ihm
      show decodeTarget (.obj ms') = decodeTarget (.obj ms)
      simp only [decodeTarget, c1 rfl]
    | node =>
      simp only [Ty.fields] at hfs
      injection hfs with hfs2
      subst hfs2
      obtain ⟨c1, c2, c3, c4, c5, c6⟩ := ihm
      show decodeNode (.obj ms') = decodeNode (.obj ms)
      simp only [decodeNode, c3 rfl]
    | resolve =>
      simp only [Ty.fields] at hfs
      injection hfs with hfs2
      subst hfs2
      obtain ⟨c1, c2, c3, c4, c5, c6⟩ := ihm
      show decodeResolve (.obj ms') = decodeResolve (.obj ms)
      simp only [decodeResolve, c4 rfl]
    | dependency =>
      simp only [Ty.fields] at hfs
      injection hfs with hfs2
      subst hfs2
      obtain ⟨c1, c2, c3, c4, c5, c6⟩ := ihm
      show decodeDependency (.obj ms') = decodeDependency (.obj ms)
      simp only [decodeDependency, c6 rfl]
    | _ => simp [Ty.fields] at hfs
  | memsNil fs =>
    exact ⟨fun _ st => rfl, fun _ st => rfl, fun _ st => rfl,
      fun _ st => rfl, fun _ st => rfl, fun _ st => rfl⟩
  | memsAdd fs k v ms ms' hlk hE ihm =>
    obtain ⟨c1, c2, c3, c4, c5, c6⟩ := ihm
    refine ⟨?_, ?_, ?_, ?_, ?_, ?_⟩
    · rintro rfl st
      simp only [foldFields, stepTarget_unknown st k v hlk]
      exact c1 rfl st
    · rintro rfl st
      simp only [foldFields, stepPackage_unknown st k v hlk]
      exact c2 rfl st
    · rintro rfl st
      simp only [foldFields, stepNode_unknown st k v hlk]
      exact c3 rfl st
    · rintro rfl st
      simp only [foldFields, stepResolve_unknown st k v hlk]
      exact c4 rfl st
    · rintro rfl st
      simp only [foldFields, stepMetadata_unknown st k v hlk]
      exact c5 rfl st
    · rintro rfl st
      simp only [foldFields, stepDependency_unknown st k v hlk]
      exact c6 rfl st
  | memsKnown fs k t v v' ms ms' hlk hv hmems ihv ihm =>
    obtain ⟨c1, c2, c3, c4, c5, c6⟩ := ihm
    refine ⟨?_, ?_, ?_, ?_, ?_, ?_⟩
    · rintro rfl st
      exact foldFields_cons_eq stepTarget k v v' ms ms'
        (stepTarget_val_eq k t hlk v v' ihv) (c1 rfl) st
    · rintro rfl st
      exact foldFields_cons_eq stepPackage k v v' ms ms'
        (stepPackage_val_eq k t hlk v v' ihv) (c2 rfl) st
    · rintro rfl st
      exact foldFields_cons_eq stepNode k v v' ms ms'
        (stepNode_val_eq k t hlk v v' ihv) (c3 rfl) st
    · rintro rfl st
      exact foldFields_cons_eq stepResolve k v v' ms ms'
        (stepResolve_val_eq k t hlk v v' ihv) (c4 rfl) st
    · rintro rfl st
      exact foldFields_cons_eq stepMetadata k v v' ms ms'
        (stepMetadata_val_eq k t hlk v v' ihv) (c5 rfl) st
    · rintro rfl st
      exact foldFields_cons_eq stepDependency k v v' ms ms'
        (stepDependency_val_eq k t hlk v v' ihv) (c6 rfl) st
  | memsUnknown fs k v ms ms' hlk hE ihm =>
    obtain ⟨c1, c2, c3, c4, c5, c6⟩ := ihm
    refine ⟨?_, ?_, ?_, ?_, ?_, ?_⟩
    · rintro rfl st
      exact foldFields_cons_eq stepTarget k v v ms ms' (fun _ => rfl) (c1 rfl) st
    · rintro rfl st
      exact foldFields_cons_eq stepPackage k v v ms ms' (fun _ => rfl) (c2 rfl) st
    · rintro rfl st
      exact foldFields_cons_eq stepNode k v v ms ms' (fun _ => rfl) (c3 rfl) st
    · rintro rfl st
      exact foldFields_cons_eq stepResolve k v v ms ms' (fun _ => rfl) (c4 rfl) st
    · rintro rfl st
      exact foldFields_cons_eq stepMetadata k v v ms ms' (fun _ => rfl) (c5 rfl) st
    · rintro rfl st
      exact foldFields_cons_eq stepDependency k v v ms ms' (fun _ => rfl) (c6 rfl) st

/-- C3: for every document that decodes successfully to a graph, any
document obtained by adding extra, unrecognized object members anywhere
(`Ext`) decodes successfully to the same graph; unknown fields never cause
a decode error. -/
theorem unknown_fields_ignored (D D' : Json) (g : Metadata)
    (hext : Ext (.ty .metadata) D D') (h : decodeMetadata D = .ok g) :
    decodeMetadata D' = .ok g := by
  have h2 : decodeMetadata D' = decodeMetadata D := ext_decode_eq _ _ _ hext
  rw [h2, h]

/-- C3 witness: adding an unrecognized member at the root and another
inside a package leaves the decoded graph unchanged. -/
theorem unknown_fields_ignored_witness :
    decodeMetadata (.obj [("extra", .null),
      ("packages", .arr [.obj (("note", .str "x") :: pkgMs "a")]),
      ("version", .num 1)]) = .ok ⟨[pkgVal "a"], [], none, 1⟩ :=
  unknown_fields_ignored
    (.obj [("packages", .arr [pkgDoc "a"]), ("version", .num 1)])
    (.obj [("extra", .null),
      ("packages", .arr [.obj (("note", .str "x") :: pkgMs "a")]),
      ("version", .num 1)])
    ⟨[pkgVal "a"], [], none, 1⟩
    (Ext.struct .metadata metadataFields _ _ rfl
      (Ext.memsAdd metadataFields "extra" .null _ _ (by decide)
        (Ext.memsKnown metadataFields "packages" (.list .package) _ _ _ _ (by decide)
          (Ext.arr .package _ _
            (Ext.elemsCons .package _ _ _ _
              (Ext.struct .package packageFields _ _ rfl
                (Ext.memsAdd packageFields "note" (.str "x") _ _ (by decide)
                  (Ext.refl _ _)))
              (Ext.elemsNil .package)))
          (Ext.refl _ _))))
    rfl

end CargoMetadata
